import Mathlib

/-!
# cognito-sample: a verification development of `main.go`

The program is a short command-line tool: it computes a Cognito secret hash
(HMAC-SHA256, base64), calls `InitiateAuth`, fetches the JWKS, verifies the
identity token, compares its expiration with the clock, prints the claims and
revokes the refresh token.

The development has three layers.

* Models of the Go standard-library pieces `generateSecretHash` calls
  (`crypto/sha256`, `crypto/hmac`, `encoding/base64`), written as the
  buffering hash objects Go implements, with machine integers as `Nat`
  reduced modulo `2^32` / `2^64`.
* Reference definitions written from the standards (FIPS 180-4 padding,
  RFC 2104, RFC 4648) against which the Go-shaped models are compared.
* The program itself (`generateSecretHash`, `ensureEnvValue`,
  `getUsernameAndPassowrd`, `getToken`, `verifyToken`, `revokeToken`, `init`,
  `main`) as functions into a trace-and-halt monad over an explicit `World`
  of external answers.
-/

namespace CognitoSample

/-! ## Bytes and Go strings -/

/-- A Go `byte`. -/
abbrev Byte := Fin 256

/-- A Go `string` / `[]byte`: an arbitrary sequence of bytes. -/
abbrev GoString := List Byte

/-- The bytes of a string literal of the source (UTF-8, as Go stores it). -/
def str (s : String) : GoString :=
  s.toList.flatMap fun c => (String.utf8EncodeChar c).map fun b => Fin.ofNat b.toNat

/-! ## `crypto/sha256`

The Go standard library is not part of the repository; the hash object is
modelled after its portable implementation (`digest`, `Write`, `checkSum`,
`Sum`, `blockGeneric`). -/

namespace sha256

/-- The block size of SHA-256 in bytes (`sha256.BlockSize`, `chunk`). -/
def chunk : Nat := 64

/-- The size of a SHA-256 checksum in bytes (`sha256.Size`). -/
def Size : Nat := 32

/-- Reduction to a `uint32`. -/
def u32 (n : Nat) : Nat := n % 2 ^ 32

/-- Rotation to the right, `bits.RotateLeft32(x, -k)`, on a `uint32`. -/
def rotr (x k : Nat) : Nat := u32 ((x >>> k) ||| (x <<< (32 - k)))

/-- Bitwise complement of a `uint32`, Go's unary `^`. -/
def not32 (x : Nat) : Nat := x ^^^ 0xffffffff

/-- The array `h [8]uint32` of chaining values. -/
structure Words8 where
  h0 : Nat
  h1 : Nat
  h2 : Nat
  h3 : Nat
  h4 : Nat
  h5 : Nat
  h6 : Nat
  h7 : Nat
deriving DecidableEq, Repr

/-- The initial chaining values `init0 .. init7`. -/
def initH : Words8 :=
  { h0 := 0x6A09E667, h1 := 0xBB67AE85, h2 := 0x3C6EF372, h3 := 0xA54FF53A,
    h4 := 0x510E527F, h5 := 0x9B05688C, h6 := 0x1F83D9AB, h7 := 0x5BE0CD19 }

/-- The round constants `_K`. -/
def _K : List Nat :=
  [0x428a2f98, 0x71374491, 0xb5c0fbcf, 0xe9b5dba5, 0x3956c25b, 0x59f111f1, 0x923f82a4, 0xab1c5ed5,
   0xd807aa98, 0x12835b01, 0x243185be, 0x550c7dc3, 0x72be5d74, 0x80deb1fe, 0x9bdc06a7, 0xc19bf174,
   0xe49b69c1, 0xefbe4786, 0x0fc19dc6, 0x240ca1cc, 0x2de92c6f, 0x4a7484aa, 0x5cb0a9dc, 0x76f988da,
   0x983e5152, 0xa831c66d, 0xb00327c8, 0xbf597fc7, 0xc6e00bf3, 0xd5a79147, 0x06ca6351, 0x14292967,
   0x27b70a85, 0x2e1b2138, 0x4d2c6dfc, 0x53380d13, 0x650a7354, 0x766a0abb, 0x81c2c92e, 0x92722c85,
   0xa2bfe8a1, 0xa81a664b, 0xc24b8b70, 0xc76c51a3, 0xd192e819, 0xd6990624, 0xf40e3585, 0x106aa070,
   0x19a4c116, 0x1e376c08, 0x2748774c, 0x34b0bcb5, 0x391c0cb3, 0x4ed8aa4a, 0x5b9cca4f, 0x682e6ff3,
   0x748f82ee, 0x78a5636f, 0x84c87814, 0x8cc70208, 0x90befffa, 0xa4506ceb, 0xbef9a3f7, 0xc67178f2]

/-- The byte `p[j]`, zero when out of range. -/
def byteAt (p : List Byte) (j : Nat) : Nat := (p.getD j 0).val

/-- The first loop of `blockGeneric`: `w[i]` for `i < 16` is the big-endian
word at `p[4*i .. 4*i+3]`. -/
def loadWords (p : List Byte) : List Nat :=
  (List.range 16).map fun i =>
    let j := i * 4
    (byteAt p j <<< 24) ||| (byteAt p (j + 1) <<< 16) ||| (byteAt p (j + 2) <<< 8) |||
      byteAt p (j + 3)

/-- One step of the second loop of `blockGeneric`: appends `w[i]` for
`i = w.length`, `16 ≤ i`. -/
def extendStep (w : List Nat) : List Nat :=
  let i := w.length
  let v1 := w.getD (i - 2) 0
  let t1 := rotr v1 17 ^^^ rotr v1 19 ^^^ (v1 >>> 10)
  let v2 := w.getD (i - 15) 0
  let t2 := rotr v2 7 ^^^ rotr v2 18 ^^^ (v2 >>> 3)
  w ++ [u32 (t1 + w.getD (i - 7) 0 + t2 + w.getD (i - 16) 0)]

/-- The message schedule `w[0..63]` of one block. -/
def schedule (p : List Byte) : List Nat :=
  Nat.iterate extendStep 48 (loadWords p)

/-- One iteration of the third loop of `blockGeneric` on the working
variables `a .. h`. -/
def round (w : List Nat) (s : Words8) (i : Nat) : Words8 :=
  let t1 := u32 (s.h7 + (rotr s.h4 6 ^^^ rotr s.h4 11 ^^^ rotr s.h4 25) +
    ((s.h4 &&& s.h5) ^^^ (not32 s.h4 &&& s.h6)) + _K.getD i 0 + w.getD i 0)
  let t2 := u32 ((rotr s.h0 2 ^^^ rotr s.h0 13 ^^^ rotr s.h0 22) +
    ((s.h0 &&& s.h1) ^^^ (s.h0 &&& s.h2) ^^^ (s.h1 &&& s.h2)))
  { h0 := u32 (t1 + t2), h1 := s.h0, h2 := s.h1, h3 := s.h2,
    h4 := u32 (s.h3 + t1), h5 := s.h4, h6 := s.h5, h7 := s.h6 }

/-- The body of the outer loop of `blockGeneric`: one 64-byte chunk. -/
def blockOne (h : Words8) (p : List Byte) : Words8 :=
  let w := schedule p
  let s := (List.range 64).foldl (round w) h
  { h0 := u32 (h.h0 + s.h0), h1 := u32 (h.h1 + s.h1), h2 := u32 (h.h2 + s.h2),
    h3 := u32 (h.h3 + s.h3), h4 := u32 (h.h4 + s.h4), h5 := u32 (h.h5 + s.h5),
    h6 := u32 (h.h6 + s.h6), h7 := u32 (h.h7 + s.h7) }

/-- The loop `for len(p) >= chunk { ...; p = p[chunk:] }` run `n` times. -/
def blockLoop : Nat → Words8 → List Byte → Words8
  | 0, h, _ => h
  | n + 1, h, p => blockLoop n (blockOne h (p.take chunk)) (p.drop chunk)

/-- `block(dig, p)`: consumes every whole chunk of `p`. -/
def block (h : Words8) (p : List Byte) : Words8 :=
  blockLoop (p.length / chunk) h p

/-- The hash object `sha256.digest`.  `x` holds the buffered bytes
`d.x[:d.nx]`, so `d.nx` is `x.length`; `len` is a `uint64`. -/
structure digest where
  h : Words8
  x : List Byte
  len : Nat
deriving DecidableEq, Repr

/-- `sha256.New()` (`Reset`). -/
def New : digest := { h := initH, x := [], len := 0 }

/-- The first block of `(*digest).Write`:
`if d.nx > 0 { n := copy(d.x[d.nx:], p); d.nx += n;
if d.nx == chunk { block(d, d.x[:]); d.nx = 0 }; p = p[n:] }`.
Returns the digest and the rest of `p`. -/
def digest.writeHead (d : digest) (p : List Byte) : digest × List Byte :=
  if 0 < d.x.length then
    let n := min (chunk - d.x.length) p.length
    let x := d.x ++ p.take n
    if x.length = chunk then ({ d with h := block d.h x, x := [] }, p.drop n)
    else ({ d with x := x }, p.drop n)
  else (d, p)

/-- The second block of `(*digest).Write`:
`if len(p) >= chunk { n := len(p) &^ (chunk - 1); block(d, p[:n]); p = p[n:] }`,
where `len(p) &^ (chunk - 1)` is `len(p)` rounded down to a multiple of
`chunk`. -/
def digest.writeBlocks (d : digest) (p : List Byte) : digest × List Byte :=
  if chunk ≤ p.length then
    let n := p.length / chunk * chunk
    ({ d with h := block d.h (p.take n) }, p.drop n)
  else (d, p)

/-- The third block of `(*digest).Write`:
`if len(p) > 0 { d.nx = copy(d.x[:], p) }`. -/
def digest.writeTail (d : digest) (p : List Byte) : digest :=
  if 0 < p.length then { d with x := p.take chunk } else d

/-- `(*digest).Write`: `d.len += uint64(len(p))`, then the three blocks. -/
def digest.Write (d : digest) (p : List Byte) : digest :=
  let d0 := { d with len := (d.len + p.length) % 2 ^ 64 }
  let r1 := d0.writeHead p
  let r2 := r1.1.writeBlocks r1.2
  r2.1.writeTail r2.2

/-- `binary.BigEndian.PutUint64`. -/
def putUint64 (v : Nat) : List Byte :=
  [Fin.ofNat (v >>> 56), Fin.ofNat (v >>> 48), Fin.ofNat (v >>> 40), Fin.ofNat (v >>> 32),
   Fin.ofNat (v >>> 24), Fin.ofNat (v >>> 16), Fin.ofNat (v >>> 8), Fin.ofNat v]

/-- `binary.BigEndian.PutUint32`. -/
def putUint32 (v : Nat) : List Byte :=
  [Fin.ofNat (v >>> 24), Fin.ofNat (v >>> 16), Fin.ofNat (v >>> 8), Fin.ofNat v]

/-- The padding `checkSum` writes: `0x80`, zeros up to 56 bytes modulo 64,
then the length in bits as a big-endian `uint64`. -/
def padding (len : Nat) : List Byte :=
  let t := if len % 64 < 56 then 56 - len % 64 else 64 + 56 - len % 64
  (0x80 : Byte) :: List.replicate (t - 1) 0 ++ putUint64 ((len <<< 3) % 2 ^ 64)

/-- The bytes of the chaining values, big-endian. -/
def digestBytes (h : Words8) : List Byte :=
  putUint32 h.h0 ++ putUint32 h.h1 ++ putUint32 h.h2 ++ putUint32 h.h3 ++
    putUint32 h.h4 ++ putUint32 h.h5 ++ putUint32 h.h6 ++ putUint32 h.h7

/-- `(*digest).checkSum`: `none` stands for `panic("d.nx != 0")`. -/
def digest.checkSum (d : digest) : Option (List Byte) :=
  let d1 := d.Write (padding d.len)
  if d1.x.length ≠ 0 then none else some (digestBytes d1.h)

/-- `(*digest).Sum`: works on a copy of `d` and appends the checksum to `b`. -/
def digest.Sum (d : digest) (b : List Byte) : Option (List Byte) :=
  (d.checkSum).map fun hash => b ++ hash

end sha256

/-! ## `crypto/hmac` over SHA-256

Modelled after the standard library (`New`, `Write`, `Sum`). -/

namespace hmac

/-- The hash object `hmac.hmac` instantiated with `sha256.New`. -/
structure Hash where
  opad : List Byte
  ipad : List Byte
  outer : sha256.digest
  inner : sha256.digest
deriving DecidableEq, Repr

/-- The result of `copy(pad, key)` into a zeroed pad of `blocksize` bytes,
followed by `pad[i] ^= c` for every index. -/
def xorPad (key : List Byte) (c : Byte) : List Byte :=
  ((key ++ List.replicate (sha256.chunk - key.length) 0).take sha256.chunk).map fun b => b ^^^ c

/-- `hmac.New(sha256.New, key)`; `none` stands for a panic inside `Sum`. -/
def New (key : List Byte) : Option Hash :=
  let outer := sha256.New
  let inner := sha256.New
  let blocksize := sha256.chunk
  -- if len(key) > blocksize { hm.outer.Write(key); key = hm.outer.Sum(nil) }
  let outer1 := if blocksize < key.length then outer.Write key else outer
  let key1 := if blocksize < key.length then outer1.Sum [] else some key
  key1.map fun k =>
    let ipad := xorPad k 0x36
    let opad := xorPad k 0x5c
    { opad := opad, ipad := ipad, outer := outer1, inner := inner.Write ipad }

/-- `(*hmac).Write`. -/
def Hash.Write (h : Hash) (p : List Byte) : Hash :=
  { h with inner := h.inner.Write p }

/-- `(*hmac).Sum`; `none` stands for a panic inside `sha256`. -/
def Hash.Sum (h : Hash) (b : List Byte) : Option (List Byte) :=
  let origLen := b.length
  -- in = h.inner.Sum(in)
  (h.inner.Sum b).bind fun b1 =>
    -- h.outer.Reset(); h.outer.Write(h.opad); h.outer.Write(in[origLen:])
    let outer := (sha256.New.Write h.opad).Write (b1.drop origLen)
    -- return h.outer.Sum(in[:origLen])
    outer.Sum (b1.take origLen)

end hmac

/-! ## `encoding/base64`

Modelled after the standard library (`StdEncoding`, `Encode`). -/

namespace base64

/-- The alphabet of `base64.StdEncoding`. -/
def encodeStd : GoString :=
  str "ABCDEFGHIJKLMNOPQRSTUVWXYZabcdefghijklmnopqrstuvwxyz0123456789+/"

/-- The padding character `base64.StdPadding`. -/
def StdPadding : Byte := 61

/-- The table lookup `enc.encode[i]`. -/
def enc (i : Nat) : Byte := encodeStd.getD i 0

/-- `(*Encoding).Encode` of `StdEncoding`: whole 3-byte groups give four
characters, a remainder of one or two bytes is padded with `=`. -/
def encode : List Byte → GoString
  | [] => []
  | [a] =>
    let val := a.val <<< 16
    [enc (val >>> 18 &&& 0x3F), enc (val >>> 12 &&& 0x3F), StdPadding, StdPadding]
  | [a, b] =>
    let val := a.val <<< 16 ||| b.val <<< 8
    [enc (val >>> 18 &&& 0x3F), enc (val >>> 12 &&& 0x3F), enc (val >>> 6 &&& 0x3F), StdPadding]
  | a :: b :: c :: rest =>
    let val := a.val <<< 16 ||| b.val <<< 8 ||| c.val
    enc (val >>> 18 &&& 0x3F) :: enc (val >>> 12 &&& 0x3F) :: enc (val >>> 6 &&& 0x3F) ::
      enc (val &&& 0x3F) :: encode rest

/-- `base64.StdEncoding.EncodeToString`. -/
def EncodeToString (src : List Byte) : GoString := encode src

end base64

/-! ## Reference definitions from the standards -/

namespace Spec

/-- The big-endian bytes of the low `8 * n` bits of `v`. -/
def bigEndian (n v : Nat) : List Byte :=
  (List.range n).map fun i => Fin.ofNat (v / 256 ^ (n - 1 - i))

/-- FIPS 180-4, section 5.1.1, for a message of `l` bytes: the bit `1`,
then the least number of zero bits that brings the length to 448 modulo 512,
then the bit length `8 * l` as a 64-bit big-endian integer. -/
def sha256Padding (l : Nat) : List Byte :=
  [(0x80 : Byte)] ++ List.replicate ((119 - l % 64) % 64) 0 ++ bigEndian 8 (8 * l)

/-- The `i`-th 512-bit block `M(i)` of a padded message, counted from 0. -/
def messageBlock (m : List Byte) (i : Nat) : List Byte := (m.drop (64 * i)).take 64

/-- FIPS 180-4, section 6.2.2: `H(i+1)` is the compression of `H(i)` with
the block `M(i)`, for each block of the padded message in turn. -/
def hashBlocks (m : List Byte) : sha256.Words8 :=
  (List.range (m.length / 64)).foldl (fun h i => sha256.blockOne h (messageBlock m i))
    sha256.initH

/-- The words of the final hash value, each as four big-endian bytes. -/
def hashValueBytes (h : sha256.Words8) : List Byte :=
  [h.h0, h.h1, h.h2, h.h3, h.h4, h.h5, h.h6, h.h7].flatMap (bigEndian 4)

/-- SHA-256 of a message (FIPS 180-4). -/
def sha256Sum (msg : List Byte) : List Byte :=
  hashValueBytes (hashBlocks (msg ++ sha256Padding msg.length))

/-- HMAC-SHA256 (RFC 2104) with block length `B = 64`:
`H((K0 xor opad) || H((K0 xor ipad) || text))`, where `K0` is the key,
hashed first when longer than `B`, then extended with zeros to `B` bytes. -/
def hmacSHA256 (key text : List Byte) : List Byte :=
  let k := if 64 < key.length then sha256Sum key else key
  let k0 := k ++ List.replicate (64 - k.length) 0
  let ipad := List.replicate 64 (0x36 : Byte)
  let opad := List.replicate 64 (0x5c : Byte)
  sha256Sum (List.zipWith (fun a b => a ^^^ b) k0 opad ++
    sha256Sum (List.zipWith (fun a b => a ^^^ b) k0 ipad ++ text))

/-- The eight bits of a byte, most significant first. -/
def bitsOfByte (b : Byte) : List Bool :=
  (List.range 8).map fun i => b.val.testBit (7 - i)

/-- The number written by a list of bits, most significant first. -/
def natOfBits (bs : List Bool) : Nat :=
  bs.foldl (fun n b => 2 * n + b.toNat) 0

/-- Groups of six bits, the last group completed with zero bits. -/
def sextets : List Bool → List (List Bool)
  | [] => []
  | b0 :: b1 :: b2 :: b3 :: b4 :: b5 :: rest => [b0, b1, b2, b3, b4, b5] :: sextets rest
  | bs => [bs ++ List.replicate (6 - bs.length) false]

/-- The base64 alphabet of RFC 4648, table 1. -/
def alphabet : GoString :=
  str "ABCDEFGHIJKLMNOPQRSTUVWXYZabcdefghijklmnopqrstuvwxyz0123456789+/"

/-- The padding character `=`. -/
def padChar : Byte := 61

/-- Base64 with padding (RFC 4648, section 4): the input as a bit stream,
cut into 6-bit groups, each written with the alphabet, then `=` up to a
multiple of four characters. -/
def base64 (data : List Byte) : GoString :=
  let bits := data.flatMap bitsOfByte
  let chars := (sextets bits).map fun g => alphabet.getD (natOfBits g) 0
  chars ++ List.replicate ((4 - chars.length % 4) % 4) padChar

/-- The value of a character of the alphabet. -/
def valueOf (c : Byte) : Option Nat :=
  if alphabet.indexOf c < 64 then some (alphabet.indexOf c) else none

/-- Decoding of padded base64 (RFC 4648, section 4): whole groups of four
characters of the alphabet give three bytes; the last group may end in `=`
(two bytes) or `==` (one byte); anything else is rejected. -/
def base64Decode : GoString → Option (List Byte)
  | [] => some []
  | c0 :: c1 :: c2 :: c3 :: rest =>
    if rest = [] ∧ c3 = padChar then
      if c2 = padChar then
        (valueOf c0).bind fun v0 => (valueOf c1).bind fun v1 =>
          some [Fin.ofNat (v0 * 4 + v1 / 16)]
      else
        (valueOf c0).bind fun v0 => (valueOf c1).bind fun v1 => (valueOf c2).bind fun v2 =>
          some [Fin.ofNat (v0 * 4 + v1 / 16), Fin.ofNat (v1 % 16 * 16 + v2 / 4)]
    else
      (valueOf c0).bind fun v0 => (valueOf c1).bind fun v1 => (valueOf c2).bind fun v2 =>
        (valueOf c3).bind fun v3 => (base64Decode rest).map fun r =>
          Fin.ofNat (v0 * 4 + v1 / 16) :: Fin.ofNat (v1 % 16 * 16 + v2 / 4) ::
            Fin.ofNat (v2 % 4 * 64 + v3) :: r
  | _ => none

end Spec

/-! ## `generateSecretHash` (main.go, lines 25-29) -/

/-- The function `generateSecretHash`.  `[]byte(s)` is the identity on byte
sequences and `username + clientID` is concatenation; `none` stands for a
panic raised by the hash objects. -/
def generateSecretHash (username clientID clientSecret : GoString) : Option GoString :=
  (hmac.New clientSecret).bind fun mac =>
    let mac1 := mac.Write (username ++ clientID)
    (mac1.Sum []).map fun sum => base64.EncodeToString sum

/-! ## The outside world -/

/-- A Go `error`, identified with its message `err.Error()`. -/
abbrev GoError := GoString

/-- An `aws.Config` value, as an abstract handle. -/
structure Config where
  handle : Nat
deriving DecidableEq, Repr

/-- A `jwk.Set`, as an abstract handle. -/
structure KeySet where
  handle : Nat
deriving DecidableEq, Repr

/-- A `time.Time` without monotonic reading: seconds and nanoseconds of the
wall clock. -/
structure Time where
  sec : Int
  nsec : Nat
deriving DecidableEq, Repr

/-- `Time.After` on wall-clock readings:
`ts > us || ts == us && t.nsec() > u.nsec()`. -/
def Time.After (t u : Time) : Bool :=
  decide (t.sec > u.sec) || (decide (t.sec = u.sec) && decide (t.nsec > u.nsec))

/-- A verified `jwt.Token`: its expiration time and its claims. -/
structure Token where
  Expiration : Time
  claims : List (GoString × GoString)
deriving DecidableEq, Repr

/-- `types.AuthFlowType`, a string type. -/
abbrev AuthFlowType := GoString

/-- `types.AuthFlowTypeUserPasswordAuth`. -/
def AuthFlowTypeUserPasswordAuth : AuthFlowType := str "USER_PASSWORD_AUTH"

/-- The fields of `types.AuthenticationResultType` the program reads; each
is a `*string` and may be nil. -/
structure AuthenticationResultType where
  AccessToken : Option GoString
  IdToken : Option GoString
  RefreshToken : Option GoString
deriving DecidableEq, Repr

/-- The fields of `cognitoidentityprovider.InitiateAuthInput` the program
sets.  The map `AuthParameters` is the list of its entries. -/
structure InitiateAuthInput where
  AuthFlow : AuthFlowType
  ClientId : Option GoString
  AuthParameters : List (GoString × GoString)
deriving DecidableEq, Repr

/-- The field of `cognitoidentityprovider.InitiateAuthOutput` the program
reads: a pointer that may be nil. -/
structure InitiateAuthOutput where
  AuthenticationResult : Option AuthenticationResultType
deriving DecidableEq, Repr

/-- The fields of `cognitoidentityprovider.RevokeTokenInput` the program
sets. -/
structure RevokeTokenInput where
  ClientId : Option GoString
  ClientSecret : Option GoString
  Token : Option GoString
deriving DecidableEq, Repr

/-- Everything the process receives from outside during one run. -/
structure World where
  /-- The value of `os.Args`. -/
  Args : List GoString
  /-- The error returned by `godotenv.Load(".env")`, `none` for nil. -/
  dotenvLoad : Option GoError
  /-- The function `os.Getenv` once `.env` has been loaded: the empty string
  for a variable that is absent. -/
  Getenv : GoString → GoString
  /-- The answer of `config.LoadDefaultConfig`. -/
  LoadDefaultConfig : Except GoError Config
  /-- The answer of `svc.InitiateAuth` to a request. -/
  InitiateAuth : Config → InitiateAuthInput → Except GoError InitiateAuthOutput
  /-- The answer of `jwk.Fetch` for a URL. -/
  Fetch : GoString → Except GoError KeySet
  /-- The answer of `jwt.Parse` with `jwt.WithKeySet`. -/
  Parse : GoString → KeySet → Except GoError Token
  /-- The reading of `time.Now().UTC()`. -/
  Now : Time
  /-- The error returned by `encoder.Encode(token)` on `os.Stdout`. -/
  Encode : Token → Option GoError
  /-- The error returned by `svc.RevokeToken`. -/
  RevokeToken : Config → RevokeTokenInput → Option GoError

/-- The observable actions of a run. -/
inductive Event where
  /-- A line written with `fmt.Println` to standard output. -/
  | stdout (line : GoString)
  /-- A message written by the `log` package to standard error. -/
  | log (msg : GoString)
  /-- The network call `InitiateAuth` and the error it returned. -/
  | initiateAuth (input : InitiateAuthInput) (err : Option GoError)
  /-- The network call `jwk.Fetch` and the error it returned. -/
  | fetch (url : GoString) (err : Option GoError)
  /-- The call `jwt.Parse` and the error it returned. -/
  | parse (signedToken : GoString) (err : Option GoError)
  /-- The comparison `exp.After(now)` of `main`, with the clock reading. -/
  | compareExpiration (exp now : Time)
  /-- The call `encoder.Encode(token)` on standard output and its error. -/
  | encode (token : Token) (err : Option GoError)
  /-- The network call `RevokeToken` and the error it returned. -/
  | revokeToken (input : RevokeTokenInput) (err : Option GoError)
deriving DecidableEq, Repr

/-- How a computation ends: with a value, with `os.Exit`, or with a Go
runtime panic. -/
inductive Result (α : Type) where
  | ok (a : α)
  | exit (status : Nat)
  | panic (reason : GoString)
deriving DecidableEq, Repr

/-- A computation that has run: the events it produced, in order, and how
it ended. -/
structure Run (α : Type) where
  trace : List Event
  result : Result α
deriving DecidableEq, Repr

/-- Sequencing: the second computation runs only when the first ended with
a value. -/
def Run.bind {α β : Type} (m : Run α) (f : α → Run β) : Run β :=
  match m.result with
  | .ok a => { trace := m.trace ++ (f a).trace, result := (f a).result }
  | .exit n => { trace := m.trace, result := .exit n }
  | .panic r => { trace := m.trace, result := .panic r }

instance : Monad Run where
  pure a := { trace := [], result := .ok a }
  bind := Run.bind

/-- Records one event. -/
def emit (e : Event) : Run Unit := { trace := [e], result := .ok () }

/-- `os.Exit(status)`. -/
def os.Exit {α : Type} (status : Nat) : Run α := { trace := [], result := .exit status }

/-- A Go runtime panic. -/
def goPanic {α : Type} (reason : GoString) : Run α := { trace := [], result := .panic reason }

/-- The runtime error of a nil pointer dereference. -/
def nilDereference : GoString :=
  str "runtime error: invalid memory address or nil pointer dereference"

/-- `fmt.Println(line)`; its error is discarded by the program. -/
def fmt.Println (line : GoString) : Run Unit := emit (.stdout line)

/-- `log.Fatal` / `log.Fatalf` with the formatted message: writes it to
standard error, then `os.Exit(1)`. -/
def log.Fatal {α : Type} (msg : GoString) : Run α := do
  emit (.log msg)
  os.Exit 1

/-- The error of an answer, `none` for nil. -/
def errOf {α : Type} : Except GoError α → Option GoError
  | .ok _ => none
  | .error e => some e

/-- The global variables of the program. -/
structure Globals where
  COGNITO_JWKS_URL : GoString
deriving DecidableEq, Repr

/-! ## The program (main.go) -/

/-- The function `ensureEnvValue` (lines 31-38). -/
def ensureEnvValue (w : World) (key : GoString) : Run GoString := do
  let value := w.Getenv key
  if value = [] then
    log.Fatal (str "cannot load env: " ++ key ++ str "\n")
  return value

/-- The expression `os.Args[i]`, which panics when out of range. -/
def os.ArgsAt (w : World) (i : Nat) : Run GoString :=
  match w.Args.get? i with
  | some a => pure a
  | none => goPanic (str "runtime error: index out of range")

/-- The function `getUsernameAndPassowrd` (lines 40-47). -/
def getUsernameAndPassowrd (w : World) : Run (GoString × GoString) := do
  if w.Args.length ≠ 3 then
    fmt.Println (str "please specify username and password")
    os.Exit 1
  let a1 ← os.ArgsAt w 1
  let a2 ← os.ArgsAt w 2
  return (a1, a2)

/-- The function `getToken` (lines 49-74). -/
def getToken (w : World) (cfg : Config) : Run (Option AuthenticationResultType) := do
  let clientId ← ensureEnvValue w (str "CLIENT_ID")
  let clientSecret ← ensureEnvValue w (str "CLIENT_SECRET")
  let (username, password) ← getUsernameAndPassowrd w
  let secretHash ← match generateSecretHash username clientId clientSecret with
    | some h => pure h
    | none => goPanic (str "d.nx != 0")
  let input : InitiateAuthInput :=
    { AuthFlow := AuthFlowTypeUserPasswordAuth
      ClientId := some clientId
      AuthParameters :=
        [(str "USERNAME", username), (str "PASSWORD", password), (str "SECRET_HASH", secretHash)] }
  let answer := w.InitiateAuth cfg input
  emit (.initiateAuth input (errOf answer))
  match answer with
  | .error err => log.Fatal (str "Auth request failed: " ++ err ++ str "\n")
  | .ok result => return result.AuthenticationResult

/-- The function `init` (lines 76-82): returns the global it assigns. -/
def init (w : World) : Run Globals := do
  if w.dotenvLoad ≠ none then
    log.Fatal (str "cannot load .env")
  let poolId ← ensureEnvValue w (str "POOL_ID")
  let url := str "https://cognito-idp.ap-northeast-1.amazonaws.com/" ++ poolId ++
    str "/.well-known/jwks.json"
  return { COGNITO_JWKS_URL := url }

/-- The function `verifyToken` (lines 84-97). -/
def verifyToken (w : World) (g : Globals) (signedToken : GoString) : Run Token := do
  let fetched := w.Fetch g.COGNITO_JWKS_URL
  emit (.fetch g.COGNITO_JWKS_URL (errOf fetched))
  match fetched with
  | .error err => log.Fatal err
  | .ok keySet =>
    let parsed := w.Parse signedToken keySet
    emit (.parse signedToken (errOf parsed))
    match parsed with
    | .error err => log.Fatal err
    | .ok verifiedToken => return verifiedToken

/-- The function `revokeToken` (lines 99-117). -/
def revokeToken (w : World) (cfg : Config) (token : Option AuthenticationResultType) :
    Run Unit := do
  let clientId ← ensureEnvValue w (str "CLIENT_ID")
  let clientSecret ← ensureEnvValue w (str "CLIENT_SECRET")
  -- token.RefreshToken reads a field through the pointer `token`
  let refreshToken ← match token with
    | some t => pure t.RefreshToken
    | none => goPanic nilDereference
  let revokeInput : RevokeTokenInput :=
    { ClientId := some clientId, ClientSecret := some clientSecret, Token := refreshToken }
  let err := w.RevokeToken cfg revokeInput
  emit (.revokeToken revokeInput err)
  match err with
  | some e => log.Fatal e
  | none => return ()

/-- The function `main` (lines 119-144). -/
def main (w : World) (g : Globals) : Run Unit := do
  let cfg ← match w.LoadDefaultConfig with
    | .error err => log.Fatal err
    | .ok cfg => pure cfg
  let result ← getToken w cfg
  -- *result.IdToken dereferences `result`, then the field
  let idToken ← match result with
    | some r =>
      match r.IdToken with
      | some s => pure s
      | none => goPanic nilDereference
    | none => goPanic nilDereference
  let token ← verifyToken w g idToken
  let now := w.Now
  let exp := token.Expiration
  emit (.compareExpiration exp now)
  if exp.After now then
    log.Fatal (str "id token is expiration")
  -- the error of Encode is discarded
  emit (.encode token (w.Encode token))
  revokeToken w cfg result

/-- One run of the process: `init`, then `main`. -/
def program (w : World) : Run Unit := do
  let g ← init w
  main w g

/-! ## Steps of a run -/

/-- The steps of the program, as the specification lists them. -/
inductive Step where
  | authenticate
  | fetchKeySet
  | verifyToken
  | expirationCheck
  | printClaims
  | revoke
deriving DecidableEq, Repr, Fintype

/-- The fixed order of the steps. -/
def Step.order : List Step :=
  [.authenticate, .fetchKeySet, .verifyToken, .expirationCheck, .printClaims, .revoke]

/-- The step an event belongs to, and whether the step failed: a call fails
when it returns an error, the expiration check fails when `exp.After(now)`
holds.  Output lines and log messages belong to no step. -/
def Event.step? : Event → Option (Step × Bool)
  | .initiateAuth _ err => some (.authenticate, err.isSome)
  | .fetch _ err => some (.fetchKeySet, err.isSome)
  | .parse _ err => some (.verifyToken, err.isSome)
  | .compareExpiration exp now => some (.expirationCheck, exp.After now)
  | .encode _ err => some (.printClaims, err.isSome)
  | .revokeToken _ err => some (.revoke, err.isSome)
  | .stdout _ => none
  | .log _ => none

/-- The steps executed in a trace, in order, each with its failure flag. -/
def stepsOf (t : List Event) : List (Step × Bool) := t.filterMap Event.step?

/-- Whether an event is one of the network calls `InitiateAuth`, the JWKS
fetch, or `RevokeToken`. -/
def Event.isNetworkCall : Event → Bool
  | .initiateAuth _ _ => true
  | .fetch _ _ => true
  | .revokeToken _ _ => true
  | _ => false

/-- The request `getToken` builds from a username, a password, the client
id and the client secret, with the secret hash in its reference form. -/
def authRequest (username password clientId clientSecret : GoString) : InitiateAuthInput :=
  { AuthFlow := AuthFlowTypeUserPasswordAuth
    ClientId := some clientId
    AuthParameters :=
      [(str "USERNAME", username), (str "PASSWORD", password),
       (str "SECRET_HASH", Spec.base64 (Spec.hmacSHA256 clientSecret (username ++ clientId)))] }

/-- The URL `init` stores in `COGNITO_JWKS_URL`. -/
def jwksURL (w : World) : GoString :=
  str "https://cognito-idp.ap-northeast-1.amazonaws.com/" ++ w.Getenv (str "POOL_ID") ++
    str "/.well-known/jwks.json"

/-- The request `revokeToken` builds. -/
def revokeRequest (w : World) (r : AuthenticationResultType) : RevokeTokenInput :=
  { ClientId := some (w.Getenv (str "CLIENT_ID"))
    ClientSecret := some (w.Getenv (str "CLIENT_SECRET"))
    Token := r.RefreshToken }

/-! ## Sample worlds -/

/-- An environment that sets the three required variables. -/
def sampleGetenv (key : GoString) : GoString :=
  if key = str "CLIENT_ID" then str "abc123"
  else if key = str "CLIENT_SECRET" then str "s3cr3t"
  else if key = str "POOL_ID" then str "ap-northeast-1_example"
  else []

/-- An authentication result that carries the three tokens. -/
def sampleResult : AuthenticationResultType :=
  { AccessToken := some (str "access"), IdToken := some (str "id"),
    RefreshToken := some (str "refresh") }

/-- A verified token that expires at second 1700000000. -/
def sampleToken : Token :=
  { Expiration := { sec := 1700000000, nsec := 0 }, claims := [(str "sub", str "alice")] }

/-- A world in which every call succeeds and the clock, read after the
verification, is 5 microseconds past the expiration of the token. -/
def sampleWorld : World :=
  { Args := [str "cognito-sample", str "alice", str "hunter2"]
    dotenvLoad := none
    Getenv := sampleGetenv
    LoadDefaultConfig := .ok { handle := 0 }
    InitiateAuth := fun _ _ => .ok { AuthenticationResult := some sampleResult }
    Fetch := fun _ => .ok { handle := 1 }
    Parse := fun _ _ => .ok sampleToken
    Now := { sec := 1700000000, nsec := 5000 }
    Encode := fun _ => none
    RevokeToken := fun _ _ => none }

/-- The sample world with a clock before the expiration of the token. -/
def worldTokenValid : World :=
  { sampleWorld with Now := { sec := 1600000000, nsec := 0 } }

/-- A world without `.env` file, started without arguments. -/
def worldNoDotenv : World :=
  { sampleWorld with
    Args := [str "cognito-sample"]
    dotenvLoad := some (str "open .env: no such file or directory") }

/-- The sample world started without arguments. -/
def worldNoArgs : World :=
  { sampleWorld with Args := [str "cognito-sample"] }

/-- The sample world without `CLIENT_SECRET`. -/
def worldNoSecret : World :=
  { sampleWorld with
    Getenv := fun key => if key = str "CLIENT_SECRET" then [] else sampleGetenv key }

/-- A world in which the provider answers `InitiateAuth` with a challenge:
no error, and no authentication result. -/
def worldChallenge : World :=
  { sampleWorld with InitiateAuth := fun _ _ => .ok { AuthenticationResult := none } }

/-- The sample world with standard output closed: `Encode` returns an
error. -/
def worldStdoutClosed : World :=
  { sampleWorld with Encode := fun _ => some (str "write /dev/stdout: bad file descriptor") }

/-! ## Auxiliary definitions used in the proofs -/

/-- The hash object after the bytes `msg` have been written to a new one. -/
def sha256.absorbed (msg : List Byte) : sha256.digest :=
  { h := sha256.block sha256.initH msg
    x := msg.drop (sha256.chunk * (msg.length / sha256.chunk))
    len := msg.length % 2 ^ 64 }

/-- The key `K0` of RFC 2104 before zero extension: the key, hashed when
longer than a block. -/
def hmac.shortKey (key : List Byte) : List Byte :=
  if 64 < key.length then Spec.sha256Sum key else key

namespace sha256

/-! ## The buffering digest computes SHA-256

`Write` keeps the invariant `absorbed`: after the bytes `msg` the chaining
value is that of the whole chunks of `msg` and the buffer holds the rest.
`checkSum` then writes the padding of FIPS 180-4, which empties the buffer.
-/

theorem blockLoop_take (n : Nat) (h : Words8) (p : List Byte) :
    blockLoop n h (p.take (chunk * n)) = blockLoop n h p := by
  induction n generalizing h p with
  | zero => rfl
  | succ n ih =>
    simp only [blockLoop]
    have h1 : (p.take (chunk * (n + 1))).take chunk = p.take chunk := by
      rw [List.take_take]; congr 1; simp [chunk]
    have h2 : (p.take (chunk * (n + 1))).drop chunk = (p.drop chunk).take (chunk * n) := by
      rw [List.drop_take]; congr 1
    rw [h1, h2, ih]

theorem blockLoop_add (m n : Nat) (h : Words8) (p : List Byte) :
    blockLoop (m + n) h p = blockLoop n (blockLoop m h p) (p.drop (chunk * m)) := by
  induction m generalizing h p with
  | zero => simp [blockLoop]
  | succ m ih =>
    have e : m + 1 + n = (m + n) + 1 := by omega
    rw [e]
    simp only [blockLoop]
    rw [ih, List.drop_drop]
    congr 2
    simp [chunk]; omega

theorem block_append (h : Words8) (a b : List Byte) :
    block h (a ++ b) = block (block h a) (a.drop (chunk * (a.length / chunk)) ++ b) := by
  unfold block
  have hk : (a ++ b).length / chunk =
      a.length / chunk + ((a.drop (chunk * (a.length / chunk)) ++ b).length) / chunk := by
    simp [chunk]; omega
  rw [hk, blockLoop_add]
  have hle : chunk * (a.length / chunk) ≤ a.length := Nat.mul_div_le _ _
  rw [List.drop_append_of_le_length hle]
  congr 1
  rw [← blockLoop_take _ _ (a ++ b), List.take_append_of_le_length hle, blockLoop_take]

theorem block_of_lt (h : Words8) (p : List Byte) (hp : p.length < chunk) : block h p = h := by
  unfold block
  rw [Nat.div_eq_of_lt hp]; rfl

theorem block_take_whole (h : Words8) (p : List Byte) :
    block h (p.take (p.length / chunk * chunk)) = block h p := by
  unfold block
  have hle : p.length / chunk * chunk ≤ p.length := Nat.div_mul_le_self _ _
  have e : (p.take (p.length / chunk * chunk)).length / chunk = p.length / chunk := by
    rw [List.length_take, Nat.min_eq_left hle]
    simp [chunk]
  rw [e, Nat.mul_comm, blockLoop_take]

theorem writeBlocks_eq (d : digest) (p : List Byte) :
    d.writeBlocks p =
      ({ d with h := block d.h p }, p.drop (chunk * (p.length / chunk))) := by
  unfold digest.writeBlocks
  split
  · simp only [block_take_whole]
    rw [Nat.mul_comm]
  · rename_i hlt
    have hlt2 : p.length < chunk := by omega
    rw [block_of_lt _ _ hlt2, Nat.div_eq_of_lt hlt2]
    simp

theorem writeTail_eq (d : digest) (p : List Byte) (hp : p.length < chunk)
    (hx : 0 < p.length → d.x = []) :
    d.writeTail p = { d with x := d.x ++ p } := by
  unfold digest.writeTail
  split
  · rename_i h0
    rw [hx h0, List.take_of_length_le (by omega)]
    simp
  · rename_i h0
    have : p = [] := List.length_eq_zero.mp (by omega)
    simp [this]

theorem drop_whole_append (a b : List Byte) :
    (a ++ b).drop (chunk * ((a ++ b).length / chunk)) =
      (a.drop (chunk * (a.length / chunk)) ++ b).drop
        (chunk * ((a.drop (chunk * (a.length / chunk)) ++ b).length / chunk)) := by
  have hle : chunk * (a.length / chunk) ≤ a.length := Nat.mul_div_le _ _
  have hk : chunk * ((a ++ b).length / chunk) = chunk * (a.length / chunk) +
      chunk * ((a.drop (chunk * (a.length / chunk)) ++ b).length / chunk) := by
    simp [chunk]; omega
  rw [hk, ← List.drop_drop, List.drop_append_of_le_length hle]

theorem drop_whole_of_length (a : List Byte) (ha : a.length = chunk) :
    a.drop (chunk * (a.length / chunk)) = [] := by
  rw [ha]
  apply List.drop_of_length_le
  simp [ha, chunk]

theorem block_nil (h : Words8) : block h [] = h := rfl

theorem Write_eq (d : digest) (p : List Byte) (hx : d.x.length < chunk) :
    d.Write p =
      { h := block d.h (d.x ++ p)
        x := (d.x ++ p).drop (chunk * ((d.x ++ p).length / chunk))
        len := (d.len + p.length) % 2 ^ 64 } := by
  unfold digest.Write
  simp only []
  by_cases h0 : 0 < d.x.length
  · by_cases h1 : chunk - d.x.length ≤ p.length
    · have hn : min (chunk - d.x.length) p.length = chunk - d.x.length := Nat.min_eq_left h1
      have hlen : (d.x ++ p.take (chunk - d.x.length)).length = chunk := by
        simp only [List.length_append, List.length_take]; omega
      have hsplit : d.x ++ p = (d.x ++ p.take (chunk - d.x.length)) ++
          p.drop (chunk - d.x.length) := by
        rw [List.append_assoc, List.take_append_drop]
      have e1 : block d.h (d.x ++ p) =
          block (block d.h (d.x ++ p.take (chunk - d.x.length)))
            (p.drop (chunk - d.x.length)) := by
        rw [hsplit, block_append d.h (d.x ++ p.take (chunk - d.x.length)),
          drop_whole_of_length _ hlen]
        simp
      have e2 : (d.x ++ p).drop (chunk * ((d.x ++ p).length / chunk)) =
          (p.drop (chunk - d.x.length)).drop
            (chunk * ((p.drop (chunk - d.x.length)).length / chunk)) := by
        rw [hsplit, drop_whole_append (d.x ++ p.take (chunk - d.x.length)),
          drop_whole_of_length _ hlen]
        simp
      simp only [digest.writeHead, h0, if_true, hn, hlen, writeBlocks_eq]
      rw [writeTail_eq _ (List.drop (chunk * ((List.drop (chunk - d.x.length) p).length / chunk))
        (List.drop (chunk - d.x.length) p)) (by simp [chunk]; omega) (fun _ => rfl)]
      rw [e1, e2]
      simp
    · have hn : min (chunk - d.x.length) p.length = p.length := Nat.min_eq_right (by omega)
      have hlen : ¬ (d.x ++ p).length = chunk := by
        simp only [List.length_append]; omega
      have hlt : (d.x ++ p).length < chunk := by
        simp only [List.length_append]; omega
      simp only [digest.writeHead, h0, if_true, hn, List.take_length, hlen, if_false,
        List.drop_length, writeBlocks_eq]
      rw [writeTail_eq _ _ (by simp [chunk]) (by simp)]
      rw [block_of_lt _ _ hlt, Nat.div_eq_of_lt hlt]
      simp [block_nil]
  · have hnil : d.x = [] := List.length_eq_zero.mp (by omega)
    simp only [digest.writeHead, h0, if_false, writeBlocks_eq]
    rw [writeTail_eq _ (List.drop (chunk * (p.length / chunk)) p) (by simp [chunk]; omega)
      (by intro _; exact hnil)]
    simp [hnil]

theorem absorbed_nil : New = absorbed [] := by
  simp [New, absorbed, block, blockLoop]

theorem absorbed_x_length (msg : List Byte) : (absorbed msg).x.length < chunk := by
  simp [absorbed, chunk]; omega

theorem absorbed_Write (msg p : List Byte) :
    (absorbed msg).Write p = absorbed (msg ++ p) := by
  rw [Write_eq _ _ (absorbed_x_length msg)]
  simp only [absorbed]
  rw [← block_append, ← drop_whole_append]
  simp

theorem New_Write (p : List Byte) : New.Write p = absorbed p := by
  rw [absorbed_nil, absorbed_Write]; simp

theorem ofNat_congr {a b : Nat} (h : a % 256 = b % 256) :
    (Fin.ofNat a : Byte) = Fin.ofNat b := Fin.ext h

theorem bigEndian_eight (v : Nat) : Spec.bigEndian 8 v =
    [Fin.ofNat (v / 256 ^ 7), Fin.ofNat (v / 256 ^ 6), Fin.ofNat (v / 256 ^ 5),
     Fin.ofNat (v / 256 ^ 4), Fin.ofNat (v / 256 ^ 3), Fin.ofNat (v / 256 ^ 2),
     Fin.ofNat (v / 256 ^ 1), Fin.ofNat (v / 256 ^ 0)] := rfl

theorem bigEndian_four (v : Nat) : Spec.bigEndian 4 v =
    [Fin.ofNat (v / 256 ^ 3), Fin.ofNat (v / 256 ^ 2),
     Fin.ofNat (v / 256 ^ 1), Fin.ofNat (v / 256 ^ 0)] := rfl

theorem putUint32_eq (v : Nat) : putUint32 v = Spec.bigEndian 4 v := by
  rw [bigEndian_four]
  simp only [putUint32, Nat.shiftRight_eq_div_pow]
  norm_num

theorem putUint64_length_field (l : Nat) :
    putUint64 (((l % 2 ^ 64) <<< 3) % 2 ^ 64) = Spec.bigEndian 8 (8 * l) := by
  rw [bigEndian_eight]
  simp only [putUint64, Nat.shiftRight_eq_div_pow, Nat.shiftLeft_eq]
  norm_num
  refine ⟨?_, ?_, ?_, ?_, ?_, ?_, ?_, ?_⟩ <;> apply ofNat_congr <;> omega

theorem padding_eq (l : Nat) : padding (l % 2 ^ 64) = Spec.sha256Padding l := by
  unfold padding Spec.sha256Padding
  rw [putUint64_length_field]
  have hm : l % 2 ^ 64 % 64 = l % 64 := by omega
  simp only [hm]
  have hz : (if l % 64 < 56 then 56 - l % 64 else 64 + 56 - l % 64) - 1 =
      (119 - l % 64) % 64 := by
    split <;> omega
  rw [hz]
  simp

theorem sha256Padding_length (l : Nat) :
    (l + (Spec.sha256Padding l).length) % chunk = 0 := by
  simp [Spec.sha256Padding, bigEndian_eight, chunk]
  omega

theorem blockLoop_eq_foldl (n : Nat) (h : Words8) (p : List Byte) :
    blockLoop n h p =
      (List.range n).foldl (fun h i => blockOne h (Spec.messageBlock p i)) h := by
  induction n generalizing h p with
  | zero => rfl
  | succ n ih =>
    rw [List.range_succ_eq_map, List.foldl_cons, List.foldl_map]
    simp only [blockLoop]
    rw [ih]
    have e0 : Spec.messageBlock p 0 = p.take chunk := by
      simp [Spec.messageBlock, chunk]
    have e1 : ∀ i, Spec.messageBlock (p.drop chunk) i = Spec.messageBlock p (i + 1) := by
      intro i
      simp only [Spec.messageBlock, List.drop_drop, chunk]
      congr 2
      omega
    simp only [e0, e1]

theorem block_eq_hashBlocks (m : List Byte) : block initH m = Spec.hashBlocks m := by
  unfold block Spec.hashBlocks
  rw [blockLoop_eq_foldl]
  rfl

theorem digestBytes_eq (h : Words8) : digestBytes h = Spec.hashValueBytes h := by
  simp [digestBytes, Spec.hashValueBytes, putUint32_eq]

theorem digestBytes_length (h : Words8) : (digestBytes h).length = 32 := by
  simp [digestBytes, putUint32]

theorem checkSum_absorbed (msg : List Byte) :
    (absorbed msg).checkSum = some (Spec.sha256Sum msg) := by
  unfold digest.checkSum
  simp only []
  have hlen : (absorbed msg).len = msg.length % 2 ^ 64 := rfl
  rw [hlen, padding_eq, absorbed_Write]
  have h0 : (msg ++ Spec.sha256Padding msg.length).length % chunk = 0 := by
    rw [List.length_append]; exact sha256Padding_length _
  have hx : (absorbed (msg ++ Spec.sha256Padding msg.length)).x = [] := by
    simp only [absorbed]
    apply List.drop_of_length_le
    rw [Nat.mul_div_cancel' (Nat.dvd_of_mod_eq_zero h0)]
  rw [hx]
  simp [absorbed, block_eq_hashBlocks, digestBytes_eq, Spec.sha256Sum]

theorem Sum_absorbed (msg b : List Byte) :
    (absorbed msg).Sum b = some (b ++ Spec.sha256Sum msg) := by
  simp [digest.Sum, checkSum_absorbed]

theorem sha256Sum_length (msg : List Byte) : (Spec.sha256Sum msg).length = 32 := by
  rw [Spec.sha256Sum, ← digestBytes_eq, digestBytes_length]

end sha256
namespace hmac

/-! ## The hash object of `crypto/hmac` computes HMAC (RFC 2104) -/

theorem zipWith_replicate_right {α : Type} (f : α → α → α) (c : α) :
    ∀ (l : List α) (n : Nat), l.length = n →
      List.zipWith f l (List.replicate n c) = l.map fun a => f a c
  | [], n, h => by simp
  | a :: l, n, h => by
    cases n with
    | zero => simp at h
    | succ n =>
      simp only [List.replicate_succ, List.zipWith_cons_cons, List.map_cons]
      rw [zipWith_replicate_right f c l n (by simpa using h)]

theorem xorPad_eq (k : List Byte) (c : Byte) (hk : k.length ≤ 64) :
    xorPad k c = List.zipWith (fun a b => a ^^^ b) (k ++ List.replicate (64 - k.length) 0)
      (List.replicate 64 c) := by
  have hlen : (k ++ List.replicate (64 - k.length) (0 : Byte)).length = 64 := by
    simp; omega
  rw [zipWith_replicate_right _ _ _ _ hlen]
  unfold xorPad
  rw [List.take_of_length_le (by simp [sha256.chunk]; omega)]
  rfl

theorem shortKey_length (key : List Byte) : (shortKey key).length ≤ 64 := by
  unfold shortKey
  split
  · rw [sha256.sha256Sum_length]; omega
  · omega

theorem New_eq (key : List Byte) :
    ∃ outer, New key = some
      { opad := xorPad (shortKey key) 0x5c
        ipad := xorPad (shortKey key) 0x36
        outer := outer
        inner := sha256.absorbed (xorPad (shortKey key) 0x36) } := by
  unfold New shortKey
  simp only [sha256.chunk]
  by_cases h : 64 < key.length
  · simp only [h, if_true, sha256.New_Write, sha256.Sum_absorbed, List.nil_append,
      Option.map_some']
    exact ⟨_, rfl⟩
  · simp only [h, if_false, sha256.New_Write, Option.map_some']
    exact ⟨_, rfl⟩

theorem Sum_eq (key msg : List Byte) :
    ((New key).bind fun mac => (mac.Write msg).Sum []) = some (Spec.hmacSHA256 key msg) := by
  obtain ⟨outer, h⟩ := New_eq key
  rw [h]
  simp only [Option.some_bind, Hash.Write, Hash.Sum, sha256.absorbed_Write,
    sha256.Sum_absorbed, List.nil_append, List.length_nil, List.drop_zero, List.take_zero,
    sha256.New_Write]
  unfold Spec.hmacSHA256
  simp only []
  rw [xorPad_eq _ _ (shortKey_length key), xorPad_eq _ _ (shortKey_length key)]
  rfl

end hmac
namespace base64

/-! ## The encoder of `encoding/base64` computes base64 (RFC 4648) -/

theorem bitsOfByte_eq (b : Byte) : Spec.bitsOfByte b =
    [b.val.testBit 7, b.val.testBit 6, b.val.testBit 5, b.val.testBit 4,
     b.val.testBit 3, b.val.testBit 2, b.val.testBit 1, b.val.testBit 0] := rfl

theorem word3 (a b c : Byte) :
    a.val <<< 16 ||| b.val <<< 8 ||| c.val = a.val * 65536 + b.val * 256 + c.val := by
  have hb := b.isLt
  have hc := c.isLt
  have h1 : 2 ^ 16 * a.val + b.val * 256 = 2 ^ 16 * a.val ||| b.val * 256 :=
    Nat.mul_add_lt_is_or (by omega) _
  have h2 : 2 ^ 8 * (a.val * 256 + b.val) + c.val = 2 ^ 8 * (a.val * 256 + b.val) ||| c.val :=
    Nat.mul_add_lt_is_or (by omega) _
  simp only [Nat.shiftLeft_eq]
  have e1 : a.val * 2 ^ 16 = 2 ^ 16 * a.val := Nat.mul_comm _ _
  have e2 : b.val * 2 ^ 8 = b.val * 256 := by norm_num
  rw [e1, e2, ← h1]
  have e3 : 2 ^ 16 * a.val + b.val * 256 = 2 ^ 8 * (a.val * 256 + b.val) := by omega
  rw [e3, ← h2]
  omega

theorem word2 (a b : Byte) :
    a.val <<< 16 ||| b.val <<< 8 = a.val * 65536 + b.val * 256 := by
  have h := word3 a b 0
  simpa using h

theorem sextet (v k : Nat) : v >>> k &&& 0x3F = v / 2 ^ k % 64 := by
  rw [Nat.shiftRight_eq_div_pow]
  exact Nat.and_pow_two_sub_one_eq_mod _ 6

theorem natOfBits_cons6 (p q r s t u : Bool) :
    Spec.natOfBits [p, q, r, s, t, u] =
      32 * p.toNat + 16 * q.toNat + 8 * r.toNat + 4 * s.toNat + 2 * t.toNat + u.toNat := by
  simp only [Spec.natOfBits, List.foldl_cons, List.foldl_nil]
  omega

theorem spec_chars_cons3 (a b c : Byte) (bs : List Bool) :
    (Spec.sextets (Spec.bitsOfByte a ++ (Spec.bitsOfByte b ++ (Spec.bitsOfByte c ++ bs)))).map
        Spec.natOfBits =
      a.val / 4 :: (a.val % 4 * 16 + b.val / 16) :: (b.val % 16 * 4 + c.val / 64) ::
        c.val % 64 :: (Spec.sextets bs).map Spec.natOfBits := by
  have ha := a.isLt
  have hb := b.isLt
  have hc := c.isLt
  simp only [bitsOfByte_eq, List.cons_append, List.nil_append, Spec.sextets,
    List.map_cons, natOfBits_cons6, Nat.toNat_testBit]
  norm_num
  refine ⟨?_, ?_, ?_, ?_⟩ <;> omega

theorem spec_chars_one (a : Byte) :
    (Spec.sextets ([a].flatMap Spec.bitsOfByte)).map Spec.natOfBits =
      [a.val / 4, a.val % 4 * 16] := by
  have ha := a.isLt
  simp only [List.flatMap_cons, List.flatMap_nil, bitsOfByte_eq, List.cons_append,
    List.nil_append, List.append_nil, Spec.sextets, List.length_cons, List.length_nil,
    List.replicate, List.map_cons, List.map_nil, natOfBits_cons6, Nat.toNat_testBit]
  norm_num
  refine ⟨?_, ?_⟩ <;> omega

theorem spec_chars_two (a b : Byte) :
    (Spec.sextets ([a, b].flatMap Spec.bitsOfByte)).map Spec.natOfBits =
      [a.val / 4, a.val % 4 * 16 + b.val / 16, b.val % 16 * 4] := by
  have ha := a.isLt
  have hb := b.isLt
  simp only [List.flatMap_cons, List.flatMap_nil, bitsOfByte_eq, List.cons_append,
    List.nil_append, List.append_nil, Spec.sextets, List.length_cons, List.length_nil,
    List.replicate, List.map_cons, List.map_nil, natOfBits_cons6, Nat.toNat_testBit]
  norm_num
  refine ⟨?_, ?_, ?_⟩ <;> omega

theorem three_step {α : Type} {P : List α → Prop} (h0 : P []) (h1 : ∀ a, P [a])
    (h2 : ∀ a b, P [a, b]) (h3 : ∀ a b c rest, P rest → P (a :: b :: c :: rest)) :
    ∀ l, P l
  | [] => h0
  | [a] => h1 a
  | [a, b] => h2 a b
  | a :: b :: c :: rest => h3 a b c rest (three_step h0 h1 h2 h3 rest)

theorem encode_cons3 (a b c : Byte) (rest : List Byte) :
    encode (a :: b :: c :: rest) =
      enc (a.val / 4) :: enc (a.val % 4 * 16 + b.val / 16) ::
        enc (b.val % 16 * 4 + c.val / 64) :: enc (c.val % 64) :: encode rest := by
  have ha := a.isLt
  have hb := b.isLt
  have hc := c.isLt
  simp only [encode, word3, sextet]
  have e0 : (a.val * 65536 + b.val * 256 + c.val) / 2 ^ 18 % 64 = a.val / 4 := by omega
  have e1 : (a.val * 65536 + b.val * 256 + c.val) / 2 ^ 12 % 64 =
      a.val % 4 * 16 + b.val / 16 := by omega
  have e2 : (a.val * 65536 + b.val * 256 + c.val) / 2 ^ 6 % 64 =
      b.val % 16 * 4 + c.val / 64 := by omega
  have e3 : (a.val * 65536 + b.val * 256 + c.val) &&& 0x3F = c.val % 64 := by
    have := sextet (a.val * 65536 + b.val * 256 + c.val) 0
    simp only [Nat.shiftRight_zero, Nat.pow_zero, Nat.div_one] at this
    rw [this]; omega
  rw [e0, e1, e2, e3]

theorem encode_two (a b : Byte) :
    encode [a, b] =
      [enc (a.val / 4), enc (a.val % 4 * 16 + b.val / 16), enc (b.val % 16 * 4), StdPadding] := by
  have ha := a.isLt
  have hb := b.isLt
  simp only [encode, word2, sextet]
  have e0 : (a.val * 65536 + b.val * 256) / 2 ^ 18 % 64 = a.val / 4 := by omega
  have e1 : (a.val * 65536 + b.val * 256) / 2 ^ 12 % 64 = a.val % 4 * 16 + b.val / 16 := by
    omega
  have e2 : (a.val * 65536 + b.val * 256) / 2 ^ 6 % 64 = b.val % 16 * 4 := by omega
  rw [e0, e1, e2]

theorem encode_one (a : Byte) :
    encode [a] = [enc (a.val / 4), enc (a.val % 4 * 16), StdPadding, StdPadding] := by
  have ha := a.isLt
  simp only [encode, sextet, Nat.shiftLeft_eq]
  have e0 : a.val * 2 ^ 16 / 2 ^ 18 % 64 = a.val / 4 := by omega
  have e1 : a.val * 2 ^ 16 / 2 ^ 12 % 64 = a.val % 4 * 16 := by omega
  rw [e0, e1]

theorem chars_map (l : List (List Bool)) :
    l.map (fun g => Spec.alphabet.getD (Spec.natOfBits g) 0) =
      (l.map Spec.natOfBits).map fun n => Spec.alphabet.getD n 0 := by
  rw [List.map_map]; rfl

/-- The Go encoder computes base64 as RFC 4648 defines it. -/
theorem encode_eq_spec : ∀ data : List Byte, encode data = Spec.base64 data := by
  apply three_step
  · rfl
  · intro a
    rw [encode_one]
    simp only [Spec.base64]
    rw [chars_map, spec_chars_one]
    rfl
  · intro a b
    rw [encode_two]
    simp only [Spec.base64]
    rw [chars_map, spec_chars_two]
    rfl
  · intro a b c rest ih
    rw [encode_cons3, ih]
    simp only [Spec.base64, List.flatMap_cons]
    have e : ∀ n, (n + 1 + 1 + 1 + 1) % 4 = n % 4 := by intro n; omega
    simp only [chars_map, spec_chars_cons3, List.map_cons, List.length_cons,
      List.cons_append, e]
    rfl

/-! ## Decoding, length and padding of the encoder output -/

theorem valueOf_enc_fin : ∀ i : Fin 64, Spec.valueOf (enc i.val) = some i.val := by decide

theorem enc_ne_pad_fin : ∀ i : Fin 64, enc i.val ≠ Spec.padChar := by decide

theorem enc_mem_fin : ∀ i : Fin 64, enc i.val ∈ Spec.alphabet := by decide

theorem pad_not_mem : Spec.padChar ∉ Spec.alphabet := by decide

theorem valueOf_enc {i : Nat} (h : i < 64) : Spec.valueOf (enc i) = some i :=
  valueOf_enc_fin ⟨i, h⟩

theorem enc_ne_pad {i : Nat} (h : i < 64) : enc i ≠ Spec.padChar :=
  enc_ne_pad_fin ⟨i, h⟩

theorem enc_mem {i : Nat} (h : i < 64) : enc i ∈ Spec.alphabet :=
  enc_mem_fin ⟨i, h⟩

theorem byte_ofNat {a : Byte} {n : Nat} (h : n = a.val) : (Fin.ofNat n : Byte) = a := by
  apply Fin.ext
  show n % 256 = a.val
  have := a.isLt
  omega

/-- Decoding what the Go encoder produced gives the input back. -/
theorem decode_encode : ∀ data : List Byte, Spec.base64Decode (encode data) = some data := by
  apply three_step
  · rfl
  · intro a
    have ha := a.isLt
    have h0 : a.val / 4 < 64 := by omega
    have h1 : a.val % 4 * 16 < 64 := by omega
    rw [encode_one]
    simp only [Spec.base64Decode, valueOf_enc h0, valueOf_enc h1, Option.some_bind]
    have hp : StdPadding = Spec.padChar := rfl
    simp only [hp, and_self, if_true]
    rw [byte_ofNat (a := a) (by omega)]
  · intro a b
    have ha := a.isLt
    have hb := b.isLt
    have h0 : a.val / 4 < 64 := by omega
    have h1 : a.val % 4 * 16 + b.val / 16 < 64 := by omega
    have h2 : b.val % 16 * 4 < 64 := by omega
    rw [encode_two]
    have hp : StdPadding = Spec.padChar := rfl
    simp only [Spec.base64Decode, valueOf_enc h0, valueOf_enc h1, valueOf_enc h2,
      Option.some_bind, hp, and_self, if_true, enc_ne_pad h2, if_false]
    rw [byte_ofNat (a := a) (by omega), byte_ofNat (a := b) (by omega)]
  · intro a b c rest ih
    have ha := a.isLt
    have hb := b.isLt
    have hc := c.isLt
    have h0 : a.val / 4 < 64 := by omega
    have h1 : a.val % 4 * 16 + b.val / 16 < 64 := by omega
    have h2 : b.val % 16 * 4 + c.val / 64 < 64 := by omega
    have h3 : c.val % 64 < 64 := by omega
    rw [encode_cons3]
    simp only [Spec.base64Decode, valueOf_enc h0, valueOf_enc h1, valueOf_enc h2,
      valueOf_enc h3, Option.some_bind, enc_ne_pad h3, and_false, if_false, ih,
      Option.map_some']
    rw [byte_ofNat (a := a) (by omega), byte_ofNat (a := b) (by omega),
      byte_ofNat (a := c) (by omega)]

theorem encode_length : ∀ data : List Byte, (encode data).length = (data.length + 2) / 3 * 4 := by
  apply three_step
  · rfl
  · intro a; simp [encode_one]
  · intro a b; simp [encode_two]
  · intro a b c rest ih
    rw [encode_cons3]
    simp only [List.length_cons, ih]
    omega

/-- When two bytes remain after the whole groups, the output is characters
of the alphabet followed by exactly one `=`. -/
theorem encode_one_pad : ∀ data : List Byte, data.length % 3 = 2 →
    ∃ body, encode data = body ++ [Spec.padChar] ∧ ∀ c ∈ body, c ∈ Spec.alphabet := by
  apply three_step
  · intro h; simp at h
  · intro a h; simp at h
  · intro a b _
    have ha := a.isLt
    have hb := b.isLt
    refine ⟨[enc (a.val / 4), enc (a.val % 4 * 16 + b.val / 16), enc (b.val % 16 * 4)], ?_, ?_⟩
    · rw [encode_two]; rfl
    · intro c hc
      simp only [List.mem_cons, List.mem_singleton, List.not_mem_nil, or_false] at hc
      rcases hc with rfl | rfl | rfl <;> apply enc_mem <;> omega
  · intro a b c rest ih h
    have ha := a.isLt
    have hb := b.isLt
    have hc := c.isLt
    have hr : rest.length % 3 = 2 := by
      simp only [List.length_cons] at h; omega
    obtain ⟨body, hb1, hb2⟩ := ih hr
    refine ⟨enc (a.val / 4) :: enc (a.val % 4 * 16 + b.val / 16) ::
      enc (b.val % 16 * 4 + c.val / 64) :: enc (c.val % 64) :: body, ?_, ?_⟩
    · rw [encode_cons3, hb1]; rfl
    · intro x hx
      simp only [List.mem_cons] at hx
      rcases hx with rfl | rfl | rfl | rfl | hx
      · apply enc_mem; omega
      · apply enc_mem; omega
      · apply enc_mem; omega
      · apply enc_mem; omega
      · exact hb2 x hx

end base64

/-! ## `generateSecretHash` against the standards -/

theorem generateSecretHash_eq (username clientID clientSecret : GoString) :
    generateSecretHash username clientID clientSecret =
      some (Spec.base64 (Spec.hmacSHA256 clientSecret (username ++ clientID))) := by
  unfold generateSecretHash
  obtain ⟨outer, h⟩ := hmac.New_eq clientSecret
  have hs := hmac.Sum_eq clientSecret (username ++ clientID)
  rw [h] at hs ⊢
  simp only [Option.some_bind] at hs ⊢
  rw [hs]
  simp [base64.EncodeToString, base64.encode_eq_spec]

theorem hmacSHA256_length (key text : List Byte) : (Spec.hmacSHA256 key text).length = 32 := by
  unfold Spec.hmacSHA256
  simp only [sha256.sha256Sum_length]

/-! ## Claims about `generateSecretHash` -/

set_option maxRecDepth 100000 in
theorem golden_vector :
    generateSecretHash (str "alice") (str "abc123") (str "s3cr3t") =
      some (str "ZgU4ker5zZiyNDjrr2orkMacXbNQCSGOseG81lQWOiA=") := by
  decide!

/-- C1: for every username, clientID and clientSecret, `generateSecretHash`
returns the padded standard base64 encoding (RFC 4648) of HMAC-SHA256
(RFC 2104 over FIPS 180-4) keyed with the bytes of clientSecret over the
bytes of username followed by the bytes of clientID; for "alice", "abc123",
"s3cr3t" this is base64(HMAC-SHA256("s3cr3t", "aliceabc123")), the string
`ZgU4ker5zZiyNDjrr2orkMacXbNQCSGOseG81lQWOiA=`. -/
theorem generateSecretHash_base64_hmac_sha256 :
    (∀ username clientID clientSecret : GoString,
      generateSecretHash username clientID clientSecret =
        some (Spec.base64 (Spec.hmacSHA256 clientSecret (username ++ clientID)))) ∧
    generateSecretHash (str "alice") (str "abc123") (str "s3cr3t") =
      some (Spec.base64 (Spec.hmacSHA256 (str "s3cr3t") (str "aliceabc123"))) ∧
    generateSecretHash (str "alice") (str "abc123") (str "s3cr3t") =
      some (str "ZgU4ker5zZiyNDjrr2orkMacXbNQCSGOseG81lQWOiA=") :=
  ⟨generateSecretHash_eq, generateSecretHash_eq _ _ _, golden_vector⟩

/-- C2: for every username, clientID and clientSecret, empty strings
included, the output of `generateSecretHash` has 44 characters: 43
characters of the standard base64 alphabet followed by one `=`, which is
not in the alphabet; it is valid padded base64 and decodes to exactly 32
bytes. -/
theorem generateSecretHash_output_shape (username clientID clientSecret : GoString) :
    ∃ out, generateSecretHash username clientID clientSecret = some out ∧
      out.length = 44 ∧
      (∃ body, out = body ++ [Spec.padChar] ∧ body.length = 43 ∧
        ∀ c ∈ body, c ∈ Spec.alphabet) ∧
      Spec.padChar ∉ Spec.alphabet ∧
      ∃ digest, Spec.base64Decode out = some digest ∧ digest.length = 32 := by
  have hlen := hmacSHA256_length clientSecret (username ++ clientID)
  refine ⟨_, generateSecretHash_eq username clientID clientSecret, ?_, ?_, base64.pad_not_mem,
    ⟨_, ?_, hlen⟩⟩
  · rw [← base64.encode_eq_spec, base64.encode_length, hlen]
  · obtain ⟨body, h1, h2⟩ := base64.encode_one_pad _ (by rw [hlen] :
      (Spec.hmacSHA256 clientSecret (username ++ clientID)).length % 3 = 2)
    refine ⟨body, ?_, ?_, h2⟩
    · rw [← base64.encode_eq_spec]; exact h1
    · have hl := base64.encode_length (Spec.hmacSHA256 clientSecret (username ++ clientID))
      rw [h1, hlen] at hl
      simp only [List.length_append, List.length_singleton] at hl
      omega
  · rw [← base64.encode_eq_spec]
    exact base64.decode_encode _

/-- C3: `generateSecretHash` is total and deterministic: no input makes it
fail (the hash objects never panic, a result is always returned), and two
calls with identical inputs return identical outputs.  It takes nothing but
its three arguments and produces nothing but its result. -/
theorem generateSecretHash_total_deterministic :
    (∀ username clientID clientSecret : GoString,
      ∃ out, generateSecretHash username clientID clientSecret = some out) ∧
    (∀ u1 c1 s1 u2 c2 s2 : GoString, u1 = u2 → c1 = c2 → s1 = s2 →
      generateSecretHash u1 c1 s1 = generateSecretHash u2 c2 s2) := by
  refine ⟨fun u c s => ⟨_, generateSecretHash_eq u c s⟩, ?_⟩
  intro u1 c1 s1 u2 c2 s2 hu hc hs
  rw [hu, hc, hs]

/-- Witness of C3 at the empty strings and at "alice", "abc123", "s3cr3t". -/
theorem generateSecretHash_total_deterministic_witness :
    (∃ out, generateSecretHash [] [] [] = some out) ∧
    generateSecretHash (str "alice") (str "abc123") (str "s3cr3t") =
      generateSecretHash (str "alice") (str "abc123") (str "s3cr3t") :=
  ⟨generateSecretHash_total_deterministic.1 [] [] [],
   generateSecretHash_total_deterministic.2 _ _ _ _ _ _ rfl rfl rfl⟩

/-- C10: `generateSecretHash` depends on username and clientID only through
their concatenation, so it is not injective in the pair: ("ab", "c") and
("a", "bc") are different pairs with the same secret hash for every
clientSecret. -/
theorem generateSecretHash_concat_only :
    (∀ s u1 c1 u2 c2 : GoString, u1 ++ c1 = u2 ++ c2 →
      generateSecretHash u1 c1 s = generateSecretHash u2 c2 s) ∧
    ((str "ab", str "c") ≠ (str "a", str "bc") ∧
      ∀ s : GoString,
        generateSecretHash (str "ab") (str "c") s = generateSecretHash (str "a") (str "bc") s) := by
  have h : ∀ s u1 c1 u2 c2 : GoString, u1 ++ c1 = u2 ++ c2 →
      generateSecretHash u1 c1 s = generateSecretHash u2 c2 s := by
    intro s u1 c1 u2 c2 hcat
    unfold generateSecretHash
    rw [hcat]
  exact ⟨h, by decide, fun s => h s _ _ _ _ (by decide)⟩

/-- Witness of C10 at ("ab", "c") and ("a", "bc") with secret "s3cr3t". -/
theorem generateSecretHash_concat_only_witness :
    str "ab" ++ str "c" = str "a" ++ str "bc" ∧
    generateSecretHash (str "ab") (str "c") (str "s3cr3t") =
      generateSecretHash (str "a") (str "bc") (str "s3cr3t") :=
  ⟨by decide, generateSecretHash_concat_only.1 _ _ _ _ _ (by decide)⟩

/-! ## The monad of runs -/

@[simp]
theorem Run.pure_eq {α : Type} (a : α) :
    (pure a : Run α) = { trace := [], result := .ok a } := rfl

@[simp]
theorem Run.bind_eq {α β : Type} (m : Run α) (f : α → Run β) :
    m >>= f = m.bind f := rfl

@[simp]
theorem Run.bind_ok {α β : Type} (t : List Event) (a : α) (f : α → Run β) :
    Run.bind { trace := t, result := .ok a } f =
      { trace := t ++ (f a).trace, result := (f a).result } := rfl

@[simp]
theorem Run.bind_exit {α β : Type} (t : List Event) (n : Nat) (f : α → Run β) :
    Run.bind { trace := t, result := .exit n } f = { trace := t, result := .exit n } := rfl

@[simp]
theorem Run.bind_panic {α β : Type} (t : List Event) (r : GoString) (f : α → Run β) :
    Run.bind { trace := t, result := .panic r } f = { trace := t, result := .panic r } := rfl

@[simp]
theorem log.Fatal_eq {α : Type} (msg : GoString) :
    (log.Fatal msg : Run α) = { trace := [.log msg], result := .exit 1 } := rfl

/-! ## The functions of the program, case by case -/

theorem ensureEnvValue_empty (w : World) (key : GoString) (h : w.Getenv key = []) :
    ensureEnvValue w key =
      { trace := [.log (str "cannot load env: " ++ key ++ str "\n")], result := .exit 1 } := by
  simp [ensureEnvValue, h]

theorem ensureEnvValue_set (w : World) (key : GoString) (h : w.Getenv key ≠ []) :
    ensureEnvValue w key = { trace := [], result := .ok (w.Getenv key) } := by
  simp [ensureEnvValue, h]

theorem getUsernameAndPassowrd_other (w : World) (h : w.Args.length ≠ 3) :
    getUsernameAndPassowrd w =
      { trace := [.stdout (str "please specify username and password")], result := .exit 1 } := by
  simp [getUsernameAndPassowrd, h, fmt.Println, emit, os.Exit]

theorem getUsernameAndPassowrd_three (w : World) (a0 a1 a2 : GoString)
    (h : w.Args = [a0, a1, a2]) :
    getUsernameAndPassowrd w = { trace := [], result := .ok (a1, a2) } := by
  simp [getUsernameAndPassowrd, h, os.ArgsAt]

theorem args_of_length_three (w : World) (h : w.Args.length = 3) :
    w.Args = [w.Args.getD 0 [], w.Args.getD 1 [], w.Args.getD 2 []] := by
  match hA : w.Args, h with
  | [a, b, c], _ => rfl

theorem getToken_run (w : World) (cfg : Config) (a0 u p : GoString)
    (hc : w.Getenv (str "CLIENT_ID") ≠ []) (hs : w.Getenv (str "CLIENT_SECRET") ≠ [])
    (hA : w.Args = [a0, u, p]) :
    getToken w cfg =
      match w.InitiateAuth cfg
          (authRequest u p (w.Getenv (str "CLIENT_ID")) (w.Getenv (str "CLIENT_SECRET"))) with
      | .ok out =>
        { trace := [.initiateAuth
            (authRequest u p (w.Getenv (str "CLIENT_ID")) (w.Getenv (str "CLIENT_SECRET"))) none]
          result := .ok out.AuthenticationResult }
      | .error e =>
        { trace := [.initiateAuth
            (authRequest u p (w.Getenv (str "CLIENT_ID")) (w.Getenv (str "CLIENT_SECRET")))
            (some e), .log (str "Auth request failed: " ++ e ++ str "\n")]
          result := .exit 1 } := by
  unfold getToken
  rw [ensureEnvValue_set w _ hc, ensureEnvValue_set w _ hs,
    getUsernameAndPassowrd_three w a0 u p hA]
  simp only [Run.bind_eq, Run.bind_ok, generateSecretHash_eq, Run.pure_eq, List.nil_append]
  simp only [authRequest]
  generalize w.InitiateAuth cfg _ = ans
  cases ans <;> simp [emit, errOf]

theorem init_run (w : World) (hd : w.dotenvLoad = none) (hp : w.Getenv (str "POOL_ID") ≠ []) :
    init w = { trace := [], result := .ok { COGNITO_JWKS_URL := jwksURL w } } := by
  unfold init
  rw [ensureEnvValue_set w _ hp]
  simp [hd, jwksURL]

theorem init_dotenv (w : World) (hd : w.dotenvLoad ≠ none) :
    init w = { trace := [.log (str "cannot load .env")], result := .exit 1 } := by
  unfold init
  simp [hd]

theorem init_pool (w : World) (hd : w.dotenvLoad = none) (hp : w.Getenv (str "POOL_ID") = []) :
    init w = { trace := [.log (str "cannot load env: " ++ str "POOL_ID" ++ str "\n")],
               result := .exit 1 } := by
  unfold init
  rw [ensureEnvValue_empty w _ hp]
  simp [hd]

theorem verifyToken_run (w : World) (g : Globals) (s : GoString) :
    verifyToken w g s =
      match w.Fetch g.COGNITO_JWKS_URL with
      | .error e =>
        { trace := [.fetch g.COGNITO_JWKS_URL (some e), .log e], result := .exit 1 }
      | .ok keySet =>
        match w.Parse s keySet with
        | .error e =>
          { trace := [.fetch g.COGNITO_JWKS_URL none, .parse s (some e), .log e],
            result := .exit 1 }
        | .ok token =>
          { trace := [.fetch g.COGNITO_JWKS_URL none, .parse s none], result := .ok token } := by
  unfold verifyToken
  cases hf : w.Fetch g.COGNITO_JWKS_URL with
  | error e => simp [emit, errOf]
  | ok keySet =>
    cases hp : w.Parse s keySet with
    | error e => simp [emit, errOf, hp]
    | ok token => simp [emit, errOf, hp]

theorem revokeToken_run (w : World) (cfg : Config) (r : AuthenticationResultType)
    (hc : w.Getenv (str "CLIENT_ID") ≠ []) (hs : w.Getenv (str "CLIENT_SECRET") ≠ []) :
    revokeToken w cfg (some r) =
      match w.RevokeToken cfg (revokeRequest w r) with
      | some e =>
        { trace := [.revokeToken (revokeRequest w r) (some e), .log e], result := .exit 1 }
      | none => { trace := [.revokeToken (revokeRequest w r) none], result := .ok () } := by
  unfold revokeToken
  rw [ensureEnvValue_set w _ hc, ensureEnvValue_set w _ hs]
  simp only [Run.bind_eq, Run.bind_ok, Run.pure_eq, List.nil_append, revokeRequest]
  generalize w.RevokeToken cfg _ = ans
  cases ans <;> simp [emit]

/-- The whole run of the process when configuration and arguments are in
order: what remains is decided by the answers of the provider, the key
endpoint, the verifier, the clock and the revocation call. -/
theorem program_ready (w : World) (cfg : Config) (a0 u p : GoString)
    (hd : w.dotenvLoad = none) (hp : w.Getenv (str "POOL_ID") ≠ [])
    (hcfg : w.LoadDefaultConfig = .ok cfg)
    (hc : w.Getenv (str "CLIENT_ID") ≠ []) (hs : w.Getenv (str "CLIENT_SECRET") ≠ [])
    (hA : w.Args = [a0, u, p]) :
    program w =
      match w.InitiateAuth cfg
          (authRequest u p (w.Getenv (str "CLIENT_ID")) (w.Getenv (str "CLIENT_SECRET"))) with
      | .error e =>
        { trace := [.initiateAuth
            (authRequest u p (w.Getenv (str "CLIENT_ID")) (w.Getenv (str "CLIENT_SECRET")))
            (some e), .log (str "Auth request failed: " ++ e ++ str "\n")]
          result := .exit 1 }
      | .ok out =>
        match out.AuthenticationResult with
        | none =>
          { trace := [.initiateAuth
              (authRequest u p (w.Getenv (str "CLIENT_ID")) (w.Getenv (str "CLIENT_SECRET")))
              none]
            result := .panic nilDereference }
        | some r =>
          match r.IdToken with
          | none =>
            { trace := [.initiateAuth
                (authRequest u p (w.Getenv (str "CLIENT_ID")) (w.Getenv (str "CLIENT_SECRET")))
                none]
              result := .panic nilDereference }
          | some s =>
            match w.Fetch (jwksURL w) with
            | .error e =>
              { trace := [.initiateAuth
                  (authRequest u p (w.Getenv (str "CLIENT_ID"))
                    (w.Getenv (str "CLIENT_SECRET"))) none,
                  .fetch (jwksURL w) (some e), .log e]
                result := .exit 1 }
            | .ok keySet =>
              match w.Parse s keySet with
              | .error e =>
                { trace := [.initiateAuth
                    (authRequest u p (w.Getenv (str "CLIENT_ID"))
                      (w.Getenv (str "CLIENT_SECRET"))) none,
                    .fetch (jwksURL w) none, .parse s (some e), .log e]
                  result := .exit 1 }
              | .ok token =>
                if token.Expiration.After w.Now then
                  { trace := [.initiateAuth
                      (authRequest u p (w.Getenv (str "CLIENT_ID"))
                        (w.Getenv (str "CLIENT_SECRET"))) none,
                      .fetch (jwksURL w) none, .parse s none,
                      .compareExpiration token.Expiration w.Now,
                      .log (str "id token is expiration")]
                    result := .exit 1 }
                else
                  match w.RevokeToken cfg (revokeRequest w r) with
                  | some e =>
                    { trace := [.initiateAuth
                        (authRequest u p (w.Getenv (str "CLIENT_ID"))
                          (w.Getenv (str "CLIENT_SECRET"))) none,
                        .fetch (jwksURL w) none, .parse s none,
                        .compareExpiration token.Expiration w.Now,
                        .encode token (w.Encode token),
                        .revokeToken (revokeRequest w r) (some e), .log e]
                      result := .exit 1 }
                  | none =>
                    { trace := [.initiateAuth
                        (authRequest u p (w.Getenv (str "CLIENT_ID"))
                          (w.Getenv (str "CLIENT_SECRET"))) none,
                        .fetch (jwksURL w) none, .parse s none,
                        .compareExpiration token.Expiration w.Now,
                        .encode token (w.Encode token),
                        .revokeToken (revokeRequest w r) none]
                      result := .ok () } := by
  unfold program main
  rw [init_run w hd hp]
  simp only [hcfg, Run.bind_eq, Run.bind_ok, Run.pure_eq, List.nil_append]
  rw [getToken_run w cfg a0 u p hc hs hA]
  cases hIA : w.InitiateAuth cfg
      (authRequest u p (w.Getenv (str "CLIENT_ID")) (w.Getenv (str "CLIENT_SECRET"))) with
  | error e => simp
  | ok out =>
    cases hAR : out.AuthenticationResult with
    | none => simp [hAR, goPanic]
    | some r =>
      cases hId : r.IdToken with
      | none => simp [hAR, hId, goPanic]
      | some s =>
        simp only [hAR, hId, Run.bind_ok, List.nil_append, Run.pure_eq]
        rw [verifyToken_run, revokeToken_run w cfg r hc hs]
        cases hF : w.Fetch (jwksURL w) with
        | error e => simp [hF]
        | ok keySet =>
          cases hP : w.Parse s keySet with
          | error e => simp [hF, hP]
          | ok token =>
            by_cases hE : token.Expiration.After w.Now = true
            · simp [hF, hP, hE, emit]
            · cases hR : w.RevokeToken cfg (revokeRequest w r) with
              | none => simp [hF, hP, hE, emit, hR]
              | some e => simp [hF, hP, hE, emit, hR]

theorem program_dotenv (w : World) (hd : w.dotenvLoad ≠ none) :
    program w = { trace := [.log (str "cannot load .env")], result := .exit 1 } := by
  unfold program
  rw [init_dotenv w hd]
  rfl

theorem program_pool (w : World) (hd : w.dotenvLoad = none)
    (hp : w.Getenv (str "POOL_ID") = []) :
    program w = { trace := [.log (str "cannot load env: " ++ str "POOL_ID" ++ str "\n")],
                  result := .exit 1 } := by
  unfold program
  rw [init_pool w hd hp]
  rfl

theorem program_config (w : World) (e : GoError) (hd : w.dotenvLoad = none)
    (hp : w.Getenv (str "POOL_ID") ≠ []) (hcfg : w.LoadDefaultConfig = .error e) :
    program w = { trace := [.log e], result := .exit 1 } := by
  unfold program main
  rw [init_run w hd hp]
  simp [hcfg]

theorem program_clientId (w : World) (cfg : Config) (hd : w.dotenvLoad = none)
    (hp : w.Getenv (str "POOL_ID") ≠ []) (hcfg : w.LoadDefaultConfig = .ok cfg)
    (hc : w.Getenv (str "CLIENT_ID") = []) :
    program w = { trace := [.log (str "cannot load env: " ++ str "CLIENT_ID" ++ str "\n")],
                  result := .exit 1 } := by
  unfold program main
  rw [init_run w hd hp]
  simp only [hcfg, Run.bind_eq, Run.bind_ok, Run.pure_eq, List.nil_append]
  unfold getToken
  rw [ensureEnvValue_empty w _ hc]
  simp

theorem program_clientSecret (w : World) (cfg : Config) (hd : w.dotenvLoad = none)
    (hp : w.Getenv (str "POOL_ID") ≠ []) (hcfg : w.LoadDefaultConfig = .ok cfg)
    (hc : w.Getenv (str "CLIENT_ID") ≠ []) (hs : w.Getenv (str "CLIENT_SECRET") = []) :
    program w =
      { trace := [.log (str "cannot load env: " ++ str "CLIENT_SECRET" ++ str "\n")],
        result := .exit 1 } := by
  unfold program main
  rw [init_run w hd hp]
  simp only [hcfg, Run.bind_eq, Run.bind_ok, Run.pure_eq, List.nil_append]
  unfold getToken
  rw [ensureEnvValue_set w _ hc, ensureEnvValue_empty w _ hs]
  simp

theorem program_args (w : World) (cfg : Config) (hd : w.dotenvLoad = none)
    (hp : w.Getenv (str "POOL_ID") ≠ []) (hcfg : w.LoadDefaultConfig = .ok cfg)
    (hc : w.Getenv (str "CLIENT_ID") ≠ []) (hs : w.Getenv (str "CLIENT_SECRET") ≠ [])
    (hA : w.Args.length ≠ 3) :
    program w =
      { trace := [.stdout (str "please specify username and password")], result := .exit 1 } := by
  unfold program main
  rw [init_run w hd hp]
  simp only [hcfg, Run.bind_eq, Run.bind_ok, Run.pure_eq, List.nil_append]
  unfold getToken
  rw [ensureEnvValue_set w _ hc, ensureEnvValue_set w _ hs, getUsernameAndPassowrd_other w hA]
  simp

/-- Every run either stops before the first step with one line of output,
or has configuration and arguments in order. -/
theorem program_cases (w : World) :
    (∃ msg, program w = { trace := [.log msg], result := .exit 1 }) ∨
    program w =
      { trace := [.stdout (str "please specify username and password")], result := .exit 1 } ∨
    (∃ cfg a0 u p, w.dotenvLoad = none ∧ w.Getenv (str "POOL_ID") ≠ [] ∧
      w.LoadDefaultConfig = .ok cfg ∧ w.Getenv (str "CLIENT_ID") ≠ [] ∧
      w.Getenv (str "CLIENT_SECRET") ≠ [] ∧ w.Args = [a0, u, p]) := by
  by_cases hd : w.dotenvLoad = none
  · by_cases hp : w.Getenv (str "POOL_ID") = []
    · exact Or.inl ⟨_, program_pool w hd hp⟩
    · have hcase : (∃ e, w.LoadDefaultConfig = .error e) ∨
          (∃ cfg, w.LoadDefaultConfig = .ok cfg) := by
        cases w.LoadDefaultConfig with
        | error e => exact Or.inl ⟨e, rfl⟩
        | ok cfg => exact Or.inr ⟨cfg, rfl⟩
      rcases hcase with ⟨e, hcfg⟩ | ⟨cfg, hcfg⟩
      · exact Or.inl ⟨_, program_config w e hd hp hcfg⟩
      · by_cases hc : w.Getenv (str "CLIENT_ID") = []
        · exact Or.inl ⟨_, program_clientId w cfg hd hp hcfg hc⟩
        · by_cases hs : w.Getenv (str "CLIENT_SECRET") = []
          · exact Or.inl ⟨_, program_clientSecret w cfg hd hp hcfg hc hs⟩
          · by_cases hA : w.Args.length = 3
            · exact Or.inr (Or.inr ⟨cfg, _, _, _, hd, hp, hcfg, hc, hs,
                args_of_length_three w hA⟩)
            · exact Or.inr (Or.inl (program_args w cfg hd hp hcfg hc hs hA))
  · exact Or.inl ⟨_, program_dotenv w hd⟩

/-! ## Claims about the run of the program -/

theorem sample_env :
    sampleWorld.dotenvLoad = none ∧ sampleWorld.Getenv (str "POOL_ID") ≠ [] ∧
    sampleWorld.LoadDefaultConfig = .ok { handle := 0 } ∧
    sampleWorld.Getenv (str "CLIENT_ID") ≠ [] ∧
    sampleWorld.Getenv (str "CLIENT_SECRET") ≠ [] := by
  refine ⟨rfl, ?_, rfl, ?_, ?_⟩ <;> decide

/-- C4, as stated, fails: started without arguments where `.env` cannot be
loaded, the program exits with status 1 on the log message of `init` and
never prints the usage message. -/
theorem usage_not_printed_without_dotenv :
    worldNoDotenv.Args.length ≠ 3 ∧
    program worldNoDotenv =
      { trace := [.log (str "cannot load .env")], result := .exit 1 } ∧
    Event.stdout (str "please specify username and password") ∉
      (program worldNoDotenv).trace := by
  have h : program worldNoDotenv =
      { trace := [.log (str "cannot load .env")], result := .exit 1 } :=
    program_dotenv worldNoDotenv (by decide)
  refine ⟨by decide, h, ?_⟩
  rw [h]
  simp

/-- C4, amended: `getUsernameAndPassowrd` returns `(os.Args[1], os.Args[2])`
when `len(os.Args) = 3` and otherwise prints the usage message to standard
output and exits with status 1; in every run that reaches argument parsing
(`.env` loaded, `POOL_ID`, `CLIENT_ID`, `CLIENT_SECRET` set, configuration
loaded) the program with three `os.Args` proceeds to the `InitiateAuth`
call with that username and password, and with any other count its whole
output is the usage message and it exits with status 1. -/
theorem getUsernameAndPassowrd_after_configuration (w : World) (cfg : Config)
    (hd : w.dotenvLoad = none) (hp : w.Getenv (str "POOL_ID") ≠ [])
    (hcfg : w.LoadDefaultConfig = .ok cfg)
    (hc : w.Getenv (str "CLIENT_ID") ≠ []) (hs : w.Getenv (str "CLIENT_SECRET") ≠ []) :
    (w.Args.length = 3 →
      getUsernameAndPassowrd w =
        { trace := [], result := .ok (w.Args.getD 1 [], w.Args.getD 2 []) } ∧
      ∃ input err rest, (program w).trace = .initiateAuth input err :: rest ∧
        input.AuthParameters.lookup (str "USERNAME") = some (w.Args.getD 1 []) ∧
        input.AuthParameters.lookup (str "PASSWORD") = some (w.Args.getD 2 [])) ∧
    (w.Args.length ≠ 3 →
      getUsernameAndPassowrd w =
        { trace := [.stdout (str "please specify username and password")],
          result := .exit 1 } ∧
      program w =
        { trace := [.stdout (str "please specify username and password")],
          result := .exit 1 }) := by
  constructor
  · intro h3
    have hA := args_of_length_three w h3
    refine ⟨getUsernameAndPassowrd_three w _ _ _ hA, ?_⟩
    have hrun := program_ready w cfg _ _ _ hd hp hcfg hc hs hA
    have hU : (authRequest (w.Args.getD 1 []) (w.Args.getD 2 [])
        (w.Getenv (str "CLIENT_ID")) (w.Getenv (str "CLIENT_SECRET"))).AuthParameters.lookup
          (str "USERNAME") = some (w.Args.getD 1 []) := by
      simp only [authRequest, List.lookup]
      rfl
    have hP : (authRequest (w.Args.getD 1 []) (w.Args.getD 2 [])
        (w.Getenv (str "CLIENT_ID")) (w.Getenv (str "CLIENT_SECRET"))).AuthParameters.lookup
          (str "PASSWORD") = some (w.Args.getD 2 []) := by
      simp only [authRequest, List.lookup]
      rfl
    rw [hrun]
    split
    · exact ⟨_, _, _, rfl, hU, hP⟩
    · split
      · exact ⟨_, _, _, rfl, hU, hP⟩
      · split
        · exact ⟨_, _, _, rfl, hU, hP⟩
        · split
          · exact ⟨_, _, _, rfl, hU, hP⟩
          · split
            · exact ⟨_, _, _, rfl, hU, hP⟩
            · split
              · exact ⟨_, _, _, rfl, hU, hP⟩
              · split
                · exact ⟨_, _, _, rfl, hU, hP⟩
                · exact ⟨_, _, _, rfl, hU, hP⟩
  · intro hne
    exact ⟨getUsernameAndPassowrd_other w hne, program_args w cfg hd hp hcfg hc hs hne⟩

/-- Witness of C4 (amended): the sample world, started without arguments. -/
theorem getUsernameAndPassowrd_after_configuration_witness :
    worldNoArgs.Args.length ≠ 3 ∧
    program worldNoArgs =
      { trace := [.stdout (str "please specify username and password")],
        result := .exit 1 } :=
  ⟨by decide,
   ((getUsernameAndPassowrd_after_configuration worldNoArgs { handle := 0 }
      sample_env.1 sample_env.2.1 sample_env.2.2.1 sample_env.2.2.2.1
      sample_env.2.2.2.2).2 (by decide)).2⟩

/-- C5: when at least one of `CLIENT_ID`, `CLIENT_SECRET`, `POOL_ID` is
absent or empty, the run consists of one log message followed by exit
status 1, and none of `InitiateAuth`, the JWKS fetch or `RevokeToken`
occurs in it. -/
theorem missing_variable_stops_before_network (w : World)
    (h : w.Getenv (str "CLIENT_ID") = [] ∨ w.Getenv (str "CLIENT_SECRET") = [] ∨
      w.Getenv (str "POOL_ID") = []) :
    (∃ msg, program w = { trace := [.log msg], result := .exit 1 }) ∧
    ∀ e ∈ (program w).trace, e.isNetworkCall = false := by
  have key : ∃ msg, program w = { trace := [.log msg], result := .exit 1 } := by
    rcases program_cases w with hlog | husage | ⟨cfg, a0, u, p, hd, hp, hcfg, hc, hs, hA⟩
    · exact hlog
    · -- the usage message is printed only after the three variables were read
      by_cases hd : w.dotenvLoad = none
      · by_cases hp : w.Getenv (str "POOL_ID") = []
        · exact ⟨_, program_pool w hd hp⟩
        · have hcase : (∃ e, w.LoadDefaultConfig = .error e) ∨
              (∃ cfg, w.LoadDefaultConfig = .ok cfg) := by
            cases w.LoadDefaultConfig with
            | error e => exact Or.inl ⟨e, rfl⟩
            | ok cfg => exact Or.inr ⟨cfg, rfl⟩
          rcases hcase with ⟨e, hcfg⟩ | ⟨cfg, hcfg⟩
          · exact ⟨_, program_config w e hd hp hcfg⟩
          · by_cases hc : w.Getenv (str "CLIENT_ID") = []
            · exact ⟨_, program_clientId w cfg hd hp hcfg hc⟩
            · by_cases hs : w.Getenv (str "CLIENT_SECRET") = []
              · exact ⟨_, program_clientSecret w cfg hd hp hcfg hc hs⟩
              · rcases h with h | h | h
                · exact absurd h hc
                · exact absurd h hs
                · exact absurd h hp
      · exact ⟨_, program_dotenv w hd⟩
    · rcases h with h | h | h
      · exact absurd h hc
      · exact absurd h hs
      · exact absurd h hp
  refine ⟨key, ?_⟩
  obtain ⟨msg, hrun⟩ := key
  rw [hrun]
  intro e he
  simp only [List.mem_singleton] at he
  rw [he]
  rfl

/-- Witness of C5: the sample world without `CLIENT_SECRET`. -/
theorem missing_variable_stops_before_network_witness :
    worldNoSecret.Getenv (str "CLIENT_SECRET") = [] ∧
    ((∃ msg, program worldNoSecret = { trace := [.log msg], result := .exit 1 }) ∧
      ∀ e ∈ (program worldNoSecret).trace, e.isNetworkCall = false) :=
  ⟨by decide, missing_variable_stops_before_network worldNoSecret (Or.inr (Or.inl (by decide)))⟩

/-- C6: once verification has succeeded, the run ends at the expiration
step, with the log message "id token is expiration" and exit status 1, if
and only if the expiration time of the verified token is strictly after the
clock reading; when the expiration time is at or before the clock reading
(the token is expired) the run goes on to print the claims and to call
`RevokeToken`. -/
theorem expiration_step_stops_valid_token (w : World) (cfg : Config) (a0 u p : GoString)
    (out : InitiateAuthOutput) (r : AuthenticationResultType) (s : GoString)
    (keySet : KeySet) (token : Token)
    (hd : w.dotenvLoad = none) (hp : w.Getenv (str "POOL_ID") ≠ [])
    (hcfg : w.LoadDefaultConfig = .ok cfg)
    (hc : w.Getenv (str "CLIENT_ID") ≠ []) (hs : w.Getenv (str "CLIENT_SECRET") ≠ [])
    (hA : w.Args = [a0, u, p])
    (hIA : w.InitiateAuth cfg
      (authRequest u p (w.Getenv (str "CLIENT_ID")) (w.Getenv (str "CLIENT_SECRET"))) = .ok out)
    (hAR : out.AuthenticationResult = some r) (hId : r.IdToken = some s)
    (hF : w.Fetch (jwksURL w) = .ok keySet) (hP : w.Parse s keySet = .ok token) :
    (program w =
        { trace := [.initiateAuth
            (authRequest u p (w.Getenv (str "CLIENT_ID")) (w.Getenv (str "CLIENT_SECRET"))) none,
            .fetch (jwksURL w) none, .parse s none,
            .compareExpiration token.Expiration w.Now,
            .log (str "id token is expiration")]
          result := .exit 1 } ↔
      token.Expiration.After w.Now = true) ∧
    (token.Expiration.After w.Now = false →
      ∃ rest, (program w).trace =
        [.initiateAuth
          (authRequest u p (w.Getenv (str "CLIENT_ID")) (w.Getenv (str "CLIENT_SECRET"))) none,
          .fetch (jwksURL w) none, .parse s none,
          .compareExpiration token.Expiration w.Now,
          .encode token (w.Encode token),
          .revokeToken (revokeRequest w r) (w.RevokeToken cfg (revokeRequest w r))] ++ rest) ∧
    (token.Expiration.After w.Now = true ↔
      (w.Now.sec < token.Expiration.sec ∨
        (w.Now.sec = token.Expiration.sec ∧ w.Now.nsec < token.Expiration.nsec))) := by
  have hrun := program_ready w cfg a0 u p hd hp hcfg hc hs hA
  simp only [hIA, hAR, hId, hF, hP] at hrun
  refine ⟨?_, ?_, ?_⟩
  · constructor
    · intro heq
      by_contra hE
      rw [hrun] at heq
      simp only [hE, Bool.false_eq_true, if_false] at heq
      cases hR : w.RevokeToken cfg (revokeRequest w r) <;> simp [hR] at heq
    · intro hE
      rw [hrun]
      simp [hE]
  · intro hE
    rw [hrun]
    simp only [hE, Bool.false_eq_true, if_false]
    cases hR : w.RevokeToken cfg (revokeRequest w r) with
    | none => exact ⟨[], by simp⟩
    | some e => exact ⟨[.log e], by simp⟩
  · simp only [Time.After, Bool.or_eq_true, Bool.and_eq_true, decide_eq_true_eq, gt_iff_lt]
    constructor
    · rintro (h | ⟨h1, h2⟩)
      · exact Or.inl h
      · exact Or.inr ⟨h1.symm, h2⟩
    · rintro (h | ⟨h1, h2⟩)
      · exact Or.inl h
      · exact Or.inr ⟨h1.symm, h2⟩

/-- Witness of C6: in the sample world with a clock before the expiration
of the token, the run ends at the expiration step. -/
theorem expiration_step_stops_valid_token_witness :
    sampleToken.Expiration.After worldTokenValid.Now = true ∧
    program worldTokenValid =
      { trace := [.initiateAuth
          (authRequest (str "alice") (str "hunter2") (str "abc123") (str "s3cr3t")) none,
          .fetch (jwksURL worldTokenValid) none, .parse (str "id") none,
          .compareExpiration sampleToken.Expiration worldTokenValid.Now,
          .log (str "id token is expiration")]
        result := .exit 1 } :=
  ⟨by decide,
   (expiration_step_stops_valid_token worldTokenValid { handle := 0 } (str "cognito-sample")
      (str "alice") (str "hunter2") { AuthenticationResult := some sampleResult } sampleResult
      (str "id") { handle := 1 } sampleToken
      sample_env.1 sample_env.2.1 sample_env.2.2.1 sample_env.2.2.2.1 sample_env.2.2.2.2
      rfl rfl rfl rfl rfl rfl).1.2 (by decide)⟩

/-! ## The authentication result -/

/-- C7, as stated, fails: when the provider answers `InitiateAuth` without
error and without authentication result (a challenge), `getToken` returns
nil and `main` panics on `*result.IdToken`. -/
theorem getToken_returns_nil_on_challenge :
    worldChallenge.InitiateAuth { handle := 0 }
        (authRequest (str "alice") (str "hunter2") (str "abc123") (str "s3cr3t")) =
      .ok { AuthenticationResult := none } ∧
    getToken worldChallenge { handle := 0 } =
      { trace := [.initiateAuth
          (authRequest (str "alice") (str "hunter2") (str "abc123") (str "s3cr3t")) none]
        result := .ok none } ∧
    program worldChallenge =
      { trace := [.initiateAuth
          (authRequest (str "alice") (str "hunter2") (str "abc123") (str "s3cr3t")) none]
        result := .panic nilDereference } := by
  refine ⟨rfl, ?_, ?_⟩
  · rw [getToken_run worldChallenge { handle := 0 } (str "cognito-sample") (str "alice")
      (str "hunter2") sample_env.2.2.2.1 sample_env.2.2.2.2 rfl]
    rfl
  · rw [program_ready worldChallenge { handle := 0 } (str "cognito-sample") (str "alice")
      (str "hunter2") sample_env.1 sample_env.2.1 sample_env.2.2.1 sample_env.2.2.2.1
      sample_env.2.2.2.2 rfl]
    rfl

/-- C7, amended: for every call to `InitiateAuth` that returns without
error, `getToken` returns exactly the authentication result of the answer,
present or nil; when that result is present and carries an identity token,
the run goes on to the JWKS fetch and never panics, so the dereference of
`result.IdToken` in `main` and the read of `token.RefreshToken` in
`revokeToken` are defined. -/
theorem getToken_returns_provider_result (w : World) (cfg : Config) (a0 u p : GoString)
    (out : InitiateAuthOutput)
    (hc : w.Getenv (str "CLIENT_ID") ≠ []) (hs : w.Getenv (str "CLIENT_SECRET") ≠ [])
    (hA : w.Args = [a0, u, p])
    (hIA : w.InitiateAuth cfg
      (authRequest u p (w.Getenv (str "CLIENT_ID")) (w.Getenv (str "CLIENT_SECRET"))) = .ok out) :
    getToken w cfg =
      { trace := [.initiateAuth
          (authRequest u p (w.Getenv (str "CLIENT_ID")) (w.Getenv (str "CLIENT_SECRET"))) none]
        result := .ok out.AuthenticationResult } ∧
    (∀ r s, w.dotenvLoad = none → w.Getenv (str "POOL_ID") ≠ [] →
      w.LoadDefaultConfig = .ok cfg →
      out.AuthenticationResult = some r → r.IdToken = some s →
      (∃ rest, (program w).trace =
        .initiateAuth
          (authRequest u p (w.Getenv (str "CLIENT_ID")) (w.Getenv (str "CLIENT_SECRET"))) none ::
        .fetch (jwksURL w) (errOf (w.Fetch (jwksURL w))) :: rest) ∧
      ∀ reason, (program w).result ≠ .panic reason) ∧
    (∀ r reason, (revokeToken w cfg (some r)).result ≠ .panic reason) := by
  refine ⟨?_, ?_, ?_⟩
  · rw [getToken_run w cfg a0 u p hc hs hA, hIA]
  · intro r s hd hp hcfg hAR hId
    have hrun := program_ready w cfg a0 u p hd hp hcfg hc hs hA
    simp only [hIA, hAR, hId] at hrun
    cases hF : w.Fetch (jwksURL w) with
    | error e =>
      simp only [hF] at hrun
      rw [hrun]
      exact ⟨⟨_, rfl⟩, fun reason h => by simp at h⟩
    | ok keySet =>
      cases hP : w.Parse s keySet with
      | error e =>
        simp only [hF, hP] at hrun
        rw [hrun]
        exact ⟨⟨_, rfl⟩, fun reason h => by simp at h⟩
      | ok token =>
        by_cases hE : token.Expiration.After w.Now = true
        · simp only [hF, hP, hE, if_true] at hrun
          rw [hrun]
          exact ⟨⟨_, rfl⟩, fun reason h => by simp at h⟩
        · cases hR : w.RevokeToken cfg (revokeRequest w r) with
          | none =>
            simp only [hF, hP, hE, Bool.false_eq_true, if_false, hR] at hrun
            rw [hrun]
            exact ⟨⟨_, rfl⟩, fun reason h => by simp at h⟩
          | some e =>
            simp only [hF, hP, hE, Bool.false_eq_true, if_false, hR] at hrun
            rw [hrun]
            exact ⟨⟨_, rfl⟩, fun reason h => by simp at h⟩
  · intro r reason
    rw [revokeToken_run w cfg r hc hs]
    cases hR : w.RevokeToken cfg (revokeRequest w r) <;> simp

/-- Witness of C7 (amended): the sample world. -/
theorem getToken_returns_provider_result_witness :
    sampleWorld.InitiateAuth { handle := 0 }
        (authRequest (str "alice") (str "hunter2") (str "abc123") (str "s3cr3t")) =
      .ok { AuthenticationResult := some sampleResult } ∧
    getToken sampleWorld { handle := 0 } =
      { trace := [.initiateAuth
          (authRequest (str "alice") (str "hunter2") (str "abc123") (str "s3cr3t")) none]
        result := .ok (some sampleResult) } :=
  ⟨rfl,
   (getToken_returns_provider_result sampleWorld { handle := 0 } (str "cognito-sample")
      (str "alice") (str "hunter2") { AuthenticationResult := some sampleResult }
      sample_env.2.2.2.1 sample_env.2.2.2.2 rfl rfl).1⟩

/-! ## The request -/

/-- C9: for every username `u`, password `p`, and configured `CLIENT_ID`
`c` and `CLIENT_SECRET` `s`, the first action of `getToken` is the call of
`InitiateAuth` with a request whose auth flow is `USER_PASSWORD_AUTH`,
whose `ClientId` is `c`, and whose auth parameters are exactly `USERNAME`
= `u`, `PASSWORD` = `p` and `SECRET_HASH` = `generateSecretHash(u, c, s)`. -/
theorem getToken_request (w : World) (cfg : Config) (a0 u p c s : GoString)
    (hc : w.Getenv (str "CLIENT_ID") = c) (hc0 : c ≠ [])
    (hs : w.Getenv (str "CLIENT_SECRET") = s) (hs0 : s ≠ [])
    (hA : w.Args = [a0, u, p]) :
    ∃ secretHash err rest,
      generateSecretHash u c s = some secretHash ∧
      (getToken w cfg).trace =
        .initiateAuth
          { AuthFlow := str "USER_PASSWORD_AUTH"
            ClientId := some c
            AuthParameters :=
              [(str "USERNAME", u), (str "PASSWORD", p), (str "SECRET_HASH", secretHash)] }
          err :: rest := by
  subst hc hs
  have hg := getToken_run w cfg a0 u p hc0 hs0 hA
  cases hIA : w.InitiateAuth cfg
      (authRequest u p (w.Getenv (str "CLIENT_ID")) (w.Getenv (str "CLIENT_SECRET"))) with
  | error e =>
    simp only [hIA] at hg
    exact ⟨_, some e, [.log (str "Auth request failed: " ++ e ++ str "\n")],
      generateSecretHash_eq u _ _, by rw [hg]; rfl⟩
  | ok out =>
    simp only [hIA] at hg
    exact ⟨_, none, [], generateSecretHash_eq u _ _, by rw [hg]; rfl⟩

/-- Witness of C9: the sample world. -/
theorem getToken_request_witness :
    ∃ secretHash err rest,
      generateSecretHash (str "alice") (str "abc123") (str "s3cr3t") = some secretHash ∧
      (getToken sampleWorld { handle := 0 }).trace =
        .initiateAuth
          { AuthFlow := str "USER_PASSWORD_AUTH"
            ClientId := some (str "abc123")
            AuthParameters :=
              [(str "USERNAME", str "alice"), (str "PASSWORD", str "hunter2"),
               (str "SECRET_HASH", secretHash)] }
          err :: rest :=
  getToken_request sampleWorld { handle := 0 } (str "cognito-sample") (str "alice")
    (str "hunter2") (str "abc123") (str "s3cr3t") (by decide) (by decide) (by decide)
    (by decide) rfl

/-! ## The order of the steps -/

/-- The steps of a run and its end, in the eight shapes a run can take. -/
theorem program_shape (w : World) :
    ∃ st res, stepsOf (program w).trace = st ∧ (program w).result = res ∧
      ((st = [] ∧ res = .exit 1) ∨
       (st = [(.authenticate, true)] ∧ res = .exit 1) ∨
       (st = [(.authenticate, false)] ∧ res = .panic nilDereference) ∨
       (st = [(.authenticate, false), (.fetchKeySet, true)] ∧ res = .exit 1) ∨
       (st = [(.authenticate, false), (.fetchKeySet, false), (.verifyToken, true)] ∧
          res = .exit 1) ∨
       (st = [(.authenticate, false), (.fetchKeySet, false), (.verifyToken, false),
          (.expirationCheck, true)] ∧ res = .exit 1) ∨
       (∃ b, st = [(.authenticate, false), (.fetchKeySet, false), (.verifyToken, false),
          (.expirationCheck, false), (.printClaims, b), (.revoke, true)] ∧ res = .exit 1) ∨
       (∃ b, st = [(.authenticate, false), (.fetchKeySet, false), (.verifyToken, false),
          (.expirationCheck, false), (.printClaims, b), (.revoke, false)] ∧ res = .ok ())) := by
  refine ⟨_, _, rfl, rfl, ?_⟩
  rcases program_cases w with ⟨msg, h⟩ | h | ⟨cfg, a0, u, p, hd, hp, hcfg, hc, hs, hA⟩
  · rw [h]; exact Or.inl ⟨rfl, rfl⟩
  · rw [h]; exact Or.inl ⟨rfl, rfl⟩
  · have hrun := program_ready w cfg a0 u p hd hp hcfg hc hs hA
    cases hIA : w.InitiateAuth cfg
        (authRequest u p (w.Getenv (str "CLIENT_ID")) (w.Getenv (str "CLIENT_SECRET"))) with
    | error e =>
      simp only [hIA] at hrun
      rw [hrun]; exact Or.inr (Or.inl ⟨rfl, rfl⟩)
    | ok out =>
      cases hAR : out.AuthenticationResult with
      | none =>
        simp only [hIA, hAR] at hrun
        rw [hrun]; exact Or.inr (Or.inr (Or.inl ⟨rfl, rfl⟩))
      | some r =>
        cases hId : r.IdToken with
        | none =>
          simp only [hIA, hAR, hId] at hrun
          rw [hrun]; exact Or.inr (Or.inr (Or.inl ⟨rfl, rfl⟩))
        | some s =>
          cases hF : w.Fetch (jwksURL w) with
          | error e =>
            simp only [hIA, hAR, hId, hF] at hrun
            rw [hrun]; exact Or.inr (Or.inr (Or.inr (Or.inl ⟨rfl, rfl⟩)))
          | ok keySet =>
            cases hP : w.Parse s keySet with
            | error e =>
              simp only [hIA, hAR, hId, hF, hP] at hrun
              rw [hrun]; exact Or.inr (Or.inr (Or.inr (Or.inr (Or.inl ⟨rfl, rfl⟩))))
            | ok token =>
              by_cases hE : token.Expiration.After w.Now = true
              · simp only [hIA, hAR, hId, hF, hP, hE, if_true] at hrun
                rw [hrun]
                refine Or.inr (Or.inr (Or.inr (Or.inr (Or.inr (Or.inl ⟨?_, rfl⟩)))))
                simp [stepsOf, Event.step?, hE]
              · have hE' : token.Expiration.After w.Now = false := by
                  simpa using hE
                cases hR : w.RevokeToken cfg (revokeRequest w r) with
                | some e =>
                  simp only [hIA, hAR, hId, hF, hP, hE', Bool.false_eq_true, if_false,
                    hR] at hrun
                  rw [hrun]
                  refine Or.inr (Or.inr (Or.inr (Or.inr (Or.inr (Or.inr (Or.inl
                    ⟨(w.Encode token).isSome, ?_, rfl⟩))))))
                  simp [stepsOf, Event.step?, hE']
                | none =>
                  simp only [hIA, hAR, hId, hF, hP, hE', Bool.false_eq_true, if_false,
                    hR] at hrun
                  rw [hrun]
                  refine Or.inr (Or.inr (Or.inr (Or.inr (Or.inr (Or.inr (Or.inr
                    ⟨(w.Encode token).isSome, ?_, rfl⟩))))))
                  simp [stepsOf, Event.step?, hE']

/-- C8, as stated, fails on three runs.  With standard output closed the
print step fails and the revocation call is still made after it, and the
run ends normally.  When the provider answers `InitiateAuth` with a
challenge, the run ends after a successful authentication: no step failed
and the steps are not completed.  Without `CLIENT_SECRET` the run ends with
exit status 1 before the first step. -/
theorem step_order_claim_fails :
    (stepsOf (program worldStdoutClosed).trace =
        [(.authenticate, false), (.fetchKeySet, false), (.verifyToken, false),
         (.expirationCheck, false), (.printClaims, true), (.revoke, false)] ∧
      (program worldStdoutClosed).result = .ok () ∧
      ¬ (stepsOf (program worldStdoutClosed).trace).Pairwise (fun a _ => a.2 = false)) ∧
    (stepsOf (program worldChallenge).trace = [(.authenticate, false)] ∧
      (program worldChallenge).result = .panic nilDereference) ∧
    (stepsOf (program worldNoSecret).trace = [] ∧
      (program worldNoSecret).result = .exit 1) := by
  have hrun := program_ready worldStdoutClosed { handle := 0 } (str "cognito-sample")
    (str "alice") (str "hunter2") sample_env.1 sample_env.2.1 sample_env.2.2.1
    sample_env.2.2.2.1 sample_env.2.2.2.2 rfl
  have hst : stepsOf (program worldStdoutClosed).trace =
      [(.authenticate, false), (.fetchKeySet, false), (.verifyToken, false),
       (.expirationCheck, false), (.printClaims, true), (.revoke, false)] := by
    rw [hrun]; rfl
  have hch := program_ready worldChallenge { handle := 0 } (str "cognito-sample")
    (str "alice") (str "hunter2") sample_env.1 sample_env.2.1 sample_env.2.2.1
    sample_env.2.2.2.1 sample_env.2.2.2.2 rfl
  have hns := program_clientSecret worldNoSecret { handle := 0 } rfl (by decide) rfl
    (by decide) (by decide)
  refine ⟨⟨hst, by rw [hrun]; rfl, ?_⟩, ⟨by rw [hch]; rfl, by rw [hch]; rfl⟩,
    ⟨by rw [hns]; rfl, by rw [hns]⟩⟩
  rw [hst]
  decide

/-- C8, amended: in every run the steps executed are an initial segment of
the fixed order (authenticate, fetch key set, verify token, expiration
check, print claims, revoke), each at most once; no step is executed after
a failed step other than the print step, whose error is discarded: the
print step, failed or not, is followed by the revocation call; the
revocation call is made only when authentication, key fetch, verification
and the expiration check have all succeeded; a failed step other than the
print step ends the run with exit status 1; the run ends normally exactly
when all six steps ran and none other than the print step failed; and
every run that does not panic either ends with exit status 1 before the
first step, or completes all six steps in order and ends normally, or ends
with exit status 1 at the first step that fails. -/
theorem steps_in_order_until_failure (w : World) :
    (stepsOf (program w).trace).map Prod.fst <+: Step.order ∧
    (stepsOf (program w).trace).Pairwise (fun a _ => a.2 = true → a.1 = Step.printClaims) ∧
    (∀ b, (Step.printClaims, b) ∈ stepsOf (program w).trace →
      ∃ b', (stepsOf (program w).trace).getLast? = some (Step.revoke, b')) ∧
    (∀ b, (Step.revoke, b) ∈ stepsOf (program w).trace →
      (Step.authenticate, false) ∈ stepsOf (program w).trace ∧
      (Step.fetchKeySet, false) ∈ stepsOf (program w).trace ∧
      (Step.verifyToken, false) ∈ stepsOf (program w).trace ∧
      (Step.expirationCheck, false) ∈ stepsOf (program w).trace) ∧
    (∀ s, (s, true) ∈ stepsOf (program w).trace → s ≠ Step.printClaims →
      (program w).result = .exit 1) ∧
    ((program w).result = .ok () ↔
      (stepsOf (program w).trace).map Prod.fst = Step.order ∧
      ∀ a ∈ stepsOf (program w).trace, a.2 = true → a.1 = Step.printClaims) ∧
    ((∀ reason, (program w).result ≠ .panic reason) →
      (stepsOf (program w).trace = [] ∧ (program w).result = .exit 1) ∨
      ((stepsOf (program w).trace).map Prod.fst = Step.order ∧
        (program w).result = .ok ()) ∨
      (∃ s, s ≠ Step.printClaims ∧
        (stepsOf (program w).trace).getLast? = some (s, true) ∧
        (program w).result = .exit 1)) := by
  obtain ⟨st, res, hst, hres, hshape⟩ := program_shape w
  rw [hst, hres]
  rcases hshape with ⟨rfl, rfl⟩ | ⟨rfl, rfl⟩ | ⟨rfl, rfl⟩ | ⟨rfl, rfl⟩ | ⟨rfl, rfl⟩ |
    ⟨rfl, rfl⟩ | ⟨b, rfl, rfl⟩ | ⟨b, rfl, rfl⟩
  all_goals first
    | exact ⟨by decide, by decide, by decide, by decide, by decide, by decide,
        fun _ => by decide⟩
    | exact ⟨by decide, by decide, by decide, by decide, by decide, by decide,
        fun h => absurd rfl (h nilDereference)⟩
    | (cases b <;> exact ⟨by decide, by decide, by decide, by decide, by decide, by decide,
        fun _ => by decide⟩)

/-- Witness of C8 (amended): the sample world, whose run does not panic,
completes the six steps in order and ends normally. -/
theorem steps_in_order_until_failure_witness :
    (∀ reason, (program sampleWorld).result ≠ .panic reason) ∧
    ((stepsOf (program sampleWorld).trace = [] ∧ (program sampleWorld).result = .exit 1) ∨
      ((stepsOf (program sampleWorld).trace).map Prod.fst = Step.order ∧
        (program sampleWorld).result = .ok ()) ∨
      (∃ s, s ≠ Step.printClaims ∧
        (stepsOf (program sampleWorld).trace).getLast? = some (s, true) ∧
        (program sampleWorld).result = .exit 1)) :=
  have hrun := program_ready sampleWorld { handle := 0 } (str "cognito-sample")
    (str "alice") (str "hunter2") sample_env.1 sample_env.2.1 sample_env.2.2.1
    sample_env.2.2.2.1 sample_env.2.2.2.2 rfl
  have hres : (program sampleWorld).result = .ok () := by rw [hrun]; rfl
  have hnp : ∀ reason, (program sampleWorld).result ≠ .panic reason := by
    intro reason h
    rw [hres] at h
    cases h
  ⟨hnp, (steps_in_order_until_failure sampleWorld).2.2.2.2.2.2 hnp⟩

end CognitoSample
